import Mathlib

/-!
Contact form handler: multipart form to MIME e-mail.

A shallow embedding of `main.go` (an AWS Lambda handler that decodes a
multipart contact form, rebuilds it as a multipart/mixed e-mail and hands it
to SES), and theorems about it.

Conventions of the embedding.

* A Go `string` or `[]byte` holding text is a Lean `String`; the helper
  functions work on its list of characters. The content of an uploaded file and
  the decoded request body are lists of bytes (`Byte`). A Go string that is not
  valid UTF-8 has no counterpart here.
* A Go `error` result is an `Option Error`, with `none` for `nil`; a Go
  pointer that may be `nil` is an `Option`; a function with several results
  returns a tuple, in the order of the Go results.
* A Go map is a total function giving the zero value at an absent key.
* The functions of `main.go` keep their names. What they use of the Go
  standard library (`strings`, `encoding/base64`, `mime`, `mime/multipart`,
  `bytes`, `io`) is modelled in the namespaces of the same names; what they
  take from outside the process (the multipart form reader applied to the
  request, the MIME type registry of the host, the random boundary, SES) is a
  field of `Env`.
* A run-time panic is the result `Run.panic`.
-/

namespace ContactForm

/-! ## Basic types -/

/-- One byte of binary data. -/
abbrev Byte := Fin 256

/-- The error values that occur. Only the distinction between `nil` and not `nil`, and
never the value itself, decides what the program does. -/
inductive Error where
  /-- `base64.CorruptInputError` (the offset it carries is not modelled). -/
  | corruptInput
  /-- An error of `mime.ParseMediaType`. -/
  | mime (msg : String)
  /-- The value of `errors.New (msg)`. -/
  | new (msg : String)
  /-- An error of the multipart form reader. -/
  | form (msg : String)
  /-- An error opening or reading a stored file. -/
  | file (msg : String)
  /-- An error of the SES session or of the SES send call. -/
  | ses (msg : String)
  deriving DecidableEq, Repr

/-- The result of running code that may panic. -/
inductive Run (α : Type) where
  /-- The code returned normally. -/
  | ret (a : α)
  /-- The code stopped with a run-time panic (here always a nil pointer dereference). -/
  | panic
  deriving DecidableEq, Repr

/-! ## Package `strings` -/

namespace strings

/-- Whether `p` is a prefix of `s`, on lists of characters. -/
def startsWith : List Char → List Char → Bool
  | _, [] => true
  | [], _ :: _ => false
  | c :: s, d :: p => c == d && startsWith s p

/-- Go `strings.HasPrefix (s, p)`. -/
def HasPrefix (s p : String) : Bool := startsWith s.data p.data

/-- Whether `sub` occurs in `s` as a contiguous block, on lists of characters. -/
def containsList : List Char → List Char → Bool
  | [], sub => sub.isEmpty
  | c :: s, sub => startsWith (c :: s) sub || containsList s sub

/-- Go `strings.Contains (s, sub)`. -/
def Contains (s sub : String) : Bool := containsList s.data sub.data

/-- Go `strings.Join (elems, sep)`. -/
def Join : List String → String → String
  | [], _ => ""
  | [a], _ => a
  | a :: b :: rest, sep => a ++ sep ++ Join (b :: rest) sep

/-- The fields of a list of characters cut at every occurrence of the character `sep`;
`cur` holds, reversed, the characters of the field being read. -/
def splitAux (sep : Char) : List Char → List Char → List String
  | [], cur => [String.mk cur.reverse]
  | c :: s, cur =>
    if c = sep then String.mk cur.reverse :: splitAux sep s [] else splitAux sep s (c :: cur)

/-- Go `strings.Split (s, sep)` for a separator of one character: the fields between the
occurrences of `sep`, always at least one. -/
def Split (s : String) (sep : Char) : List String := splitAux sep s.data []

/-- Go `unicode.IsSpace`. -/
def IsSpace (c : Char) : Bool :=
  let n := c.toNat
  n = 0x09 || n = 0x0A || n = 0x0B || n = 0x0C || n = 0x0D || n = 0x20 || n = 0x85 || n = 0xA0 ||
  n = 0x1680 || (0x2000 ≤ n && n ≤ 0x200A) || n = 0x2028 || n = 0x2029 || n = 0x202F ||
  n = 0x205F || n = 0x3000

/-- Go `strings.TrimLeftFunc (s, unicode.IsSpace)`, on lists of characters. -/
def trimLeftSpace (s : List Char) : List Char := s.dropWhile IsSpace

/-- Go `strings.TrimSpace`, on lists of characters. -/
def trimSpaceList (s : List Char) : List Char :=
  ((s.dropWhile IsSpace).reverse.dropWhile IsSpace).reverse

/-- Go `strings.TrimSpace`. -/
def TrimSpace (s : String) : String := String.mk (trimSpaceList s.data)

/-- Go `unicode.ToLower` on the characters that the callers here can tell apart: the ASCII
capitals, and the two other characters whose lower case is an ASCII letter (U+0130 and
U+212A). Every other character is left as it is; Go maps a character outside ASCII to a
character outside ASCII. -/
def toLowerChar (c : Char) : Char :=
  if c.toNat = 0x130 then 'i' else if c.toNat = 0x212A then 'k' else c.toLower

/-- Go `strings.ToLower`, with `toLowerChar` for each character. -/
def ToLower (s : String) : String := String.mk (s.data.map toLowerChar)

end strings

/-! ## Package `encoding/base64`, the encoding `StdEncoding` -/

namespace base64

/-- The alphabet of `StdEncoding`. -/
def encodeStd : List Char :=
  "ABCDEFGHIJKLMNOPQRSTUVWXYZabcdefghijklmnopqrstuvwxyz0123456789+/".data

/-- The table `enc.encode`: the character of a 6-bit value. -/
def encode (v : Nat) : Char := encodeStd.getD v 'A'

/-- The table `enc.decodeMap`: the 6-bit value of a character of the alphabet, `none` (Go
has 0xff) for every other character. -/
def decodeMap (c : Char) : Option Nat :=
  let i := encodeStd.indexOf c
  if i < 64 then some i else none

/-- Go `Encoding.Encode` with the padding character `=`. A group of three bytes gives four
characters; `val` is `b0<<16 | b1<<8 | b2` and `val>>k&0x3F` is `val / 2^k % 64`. A last
group of one or two bytes is padded. -/
def encodeList : List Byte → List Char
  | b0 :: b1 :: b2 :: rest =>
    let val := b0.val * 65536 + b1.val * 256 + b2.val
    encode (val / 262144 % 64) :: encode (val / 4096 % 64) :: encode (val / 64 % 64) ::
      encode (val % 64) :: encodeList rest
  | [b0, b1] =>
    let val := b0.val * 65536 + b1.val * 256
    [encode (val / 262144 % 64), encode (val / 4096 % 64), encode (val / 64 % 64), '=']
  | [b0] =>
    let val := b0.val * 65536
    [encode (val / 262144 % 64), encode (val / 4096 % 64), '=', '=']
  | [] => []

/-- Go `StdEncoding.EncodeToString`. -/
def EncodeToString (src : List Byte) : String := String.mk (encodeList src)

/-- The bytes that `decodeQuantum` stores for the 6-bit values read: `val` is
`d0<<18 | d1<<12 | d2<<6 | d3`, of which `dlen - 1` bytes are kept (`StdEncoding` is not
strict, so the bits that are dropped are not checked). -/
def quantumBytes (dbuf : List Nat) : List Byte :=
  let val := dbuf.getD 0 0 * 262144 + dbuf.getD 1 0 * 4096 + dbuf.getD 2 0 * 64 + dbuf.getD 3 0
  let all : List Byte := [Fin.ofNat (val / 65536), Fin.ofNat (val / 256), Fin.ofNat val]
  all.take (dbuf.length - 1)

/-- Whether a character is one of the line ends that the decoder skips. -/
def isNewline (c : Char) : Bool := c = '\n' || c = '\r'

/-- What `decodeQuantum` does once it has read a padding character with `dbuf` values in
hand (`j = dbuf.length`): fewer than two values is an error; with two values a second
`=` must follow, line ends skipped; after the padding only line ends may remain. The
bytes of the quantum are returned together with the error, as in Go. -/
def decodePadding (dbuf : List Nat) (rest : List Char) : List Byte × Option Error :=
  if dbuf.length < 2 then ([], some Error.corruptInput)
  else if dbuf.length = 2 then
    match rest.dropWhile isNewline with
    | [] => ([], some Error.corruptInput)
    | c :: rest2 =>
      if c ≠ '=' then ([], some Error.corruptInput)
      else if (rest2.dropWhile isNewline).isEmpty then (quantumBytes dbuf, none)
      else (quantumBytes dbuf, some Error.corruptInput)
  else if (rest.dropWhile isNewline).isEmpty then (quantumBytes dbuf, none)
  else (quantumBytes dbuf, some Error.corruptInput)

/-- Go `Encoding.Decode` for `StdEncoding`: the loop over `decodeQuantum`, with the values
of the quantum being read in `dbuf` (at most three). A character of the alphabet adds a
value, and the fourth one completes a quantum of three bytes; a line end is skipped; `=`
ends the input through `decodePadding`; any other character is an error; the input may
end only between two quanta. -/
def decodeList : List Char → List Nat → List Byte × Option Error
  | [], dbuf => if dbuf.isEmpty then ([], none) else ([], some Error.corruptInput)
  | c :: s, dbuf =>
    match decodeMap c with
    | some v =>
      if dbuf.length = 3 then
        let r := decodeList s []
        (quantumBytes (dbuf ++ [v]) ++ r.1, r.2)
      else decodeList s (dbuf ++ [v])
    | none =>
      if isNewline c then decodeList s dbuf
      else if c ≠ '=' then ([], some Error.corruptInput)
      else decodePadding dbuf s

/-- Go `StdEncoding.DecodeString`: the decoded bytes (those decoded before the error, when
there is one) and the error. -/
def DecodeString (s : String) : List Byte × Option Error := decodeList s.data []

end base64

/-! ## Package `mime` -/

namespace mime

/-- A map from parameter names to values, as an association list with distinct keys. -/
abbrev Params := List (String × String)

/-- The value stored under a key, if any. -/
def get? {β : Type} : List (String × β) → String → Option β
  | [], _ => none
  | (k, v) :: m, key => if k = key then some v else get? m key

/-- The map with `key` set to `v`. -/
def set {β : Type} : List (String × β) → String → β → List (String × β)
  | [], key, v => [(key, v)]
  | (k, w) :: m, key, v => if k = key then (k, v) :: m else (k, w) :: set m key v

/-- The Go expression `params[key]` of a `map[string]string`: the empty string when absent. -/
def index (m : Params) (key : String) : String := (get? m key).getD ""

/-- Go `isTSpecial`. -/
def isTSpecial (c : Char) : Bool := "()<>@,;:\\\"/[]?=".data.contains c

/-- Go `isTokenChar`. -/
def isTokenChar (c : Char) : Bool := 0x20 < c.toNat && c.toNat < 0x7f && !isTSpecial c

/-- Go `consumeToken`: the longest run of token characters at the start, and the rest. -/
def consumeToken (v : List Char) : List Char × List Char :=
  (v.takeWhile isTokenChar, v.dropWhile isTokenChar)

/-- Go `checkMediaTypeDisposition`, `none` for no error. -/
def checkMediaTypeDisposition (s : List Char) : Option Error :=
  let (typ, rest) := consumeToken s
  if typ.isEmpty then some (Error.mime "mime: no media type")
  else if rest.isEmpty then none
  else match rest with
    | '/' :: rest1 =>
      let (subtype, rest2) := consumeToken rest1
      if subtype.isEmpty then some (Error.mime "mime: expected token after slash")
      else if !rest2.isEmpty then some (Error.mime "mime: unexpected content after media subtype")
      else none
    | _ => some (Error.mime "mime: expected slash after first token")

/-- The loop of Go `consumeValue` over a quoted string, after the opening quote: `buf`
holds, reversed, the characters read. The closing quote ends it; a backslash before one of
the special characters stands for that character; a line end, or the end of the input,
gives `none` (Go then returns the empty value and the whole input). -/
def consumeQuoted : List Char → List Char → Option (List Char × List Char)
  | [], _ => none
  | '"' :: rest, buf => some (buf.reverse, rest)
  | '\\' :: c :: rest, buf =>
    if isTSpecial c then consumeQuoted rest (c :: buf) else consumeQuoted (c :: rest) ('\\' :: buf)
  | c :: rest, buf =>
    if c = '\r' || c = '\n' then none else consumeQuoted rest (c :: buf)

/-- Go `consumeValue`: a token, or a quoted string. -/
def consumeValue (v : List Char) : List Char × List Char :=
  match v with
  | [] => ([], [])
  | '"' :: rest =>
    match consumeQuoted rest [] with
    | some r => r
    | none => ([], v)
  | _ => consumeToken v

/-- Go `consumeMediaParam`: reads `; name = value` at the start of `v`; the name comes
back in lower case (a token is ASCII). An empty name says that nothing was read. -/
def consumeMediaParam (v : List Char) : List Char × List Char × List Char :=
  match strings.trimLeftSpace v with
  | ';' :: rest =>
    let (param, rest) := consumeToken (strings.trimLeftSpace rest)
    let param := param.map strings.toLowerChar
    if param.isEmpty then ([], [], v)
    else match strings.trimLeftSpace rest with
      | '=' :: rest =>
        let rest := strings.trimLeftSpace rest
        let (value, rest2) := consumeValue rest
        if value.isEmpty && rest2 = rest then ([], [], v) else (param, value, rest2)
      | _ => ([], [], v)
  | _ => ([], [], v)

/-- The value of a hexadecimal digit (Go `ishex` and `unhex`). -/
def unhex (c : Char) : Option Nat :=
  if '0' ≤ c ∧ c ≤ '9' then some (c.toNat - '0'.toNat)
  else if 'a' ≤ c ∧ c ≤ 'f' then some (c.toNat - 'a'.toNat + 10)
  else if 'A' ≤ c ∧ c ≤ 'F' then some (c.toNat - 'A'.toNat + 10)
  else none

/-- Go `percentHexUnescape`: every `%` must be followed by two hexadecimal digits and
stands for the byte they name, which is given here as the character of that code (exact
below `%80`). `none` is the error. -/
def percentHexUnescape : List Char → Option (List Char)
  | [] => some []
  | '%' :: a :: b :: rest =>
    match unhex a, unhex b with
    | some x, some y => (percentHexUnescape rest).map (Char.ofNat (x * 16 + y) :: ·)
    | _, _ => none
  | '%' :: _ => none
  | c :: rest => (percentHexUnescape rest).map (c :: ·)

/-- Go `strings.SplitN (v, "'", 3)` when it yields three pieces. -/
def splitQuote3 (v : List Char) : Option (List Char × List Char × List Char) :=
  let q := Char.ofNat 39
  match v.dropWhile (· ≠ q) with
  | [] => none
  | _ :: r1 =>
    match r1.dropWhile (· ≠ q) with
    | [] => none
    | _ :: r2 => some (v.takeWhile (· ≠ q), r1.takeWhile (· ≠ q), r2)

/-- Go `decode2231Enc`: `charset'language'value` with the charset us-ascii or utf-8. -/
def decode2231Enc (v : String) : Option String :=
  match splitQuote3 v.data with
  | none => none
  | some (cs, _, enc) =>
    let charset := String.mk (cs.map strings.toLowerChar)
    if charset ≠ "us-ascii" ∧ charset ≠ "utf-8" then none
    else (percentHexUnescape enc).map String.mk

/-- The loop `for n := 0; ; n++` of `ParseMediaType` that joins the pieces `key*n` and
`key*n*` of a continued parameter; it stops at the first number without a piece, after at
most as many rounds as there are pieces. The result is `valid` and the text collected. -/
def stitchPieces (key : String) (pieceMap : Params) : Nat → Nat → Bool → String → Bool × String
  | 0, _, valid, buf => (valid, buf)
  | fuel + 1, n, valid, buf =>
    let simplePart := key ++ "*" ++ toString n
    match get? pieceMap simplePart with
    | some v => stitchPieces key pieceMap fuel (n + 1) true (buf ++ v)
    | none =>
      match get? pieceMap (simplePart ++ "*") with
      | none => (valid, buf)
      | some v =>
        if n = 0 then
          stitchPieces key pieceMap fuel (n + 1) true (buf ++ (decode2231Enc v).getD "")
        else
          stitchPieces key pieceMap fuel (n + 1) true
            (buf ++ ((percentHexUnescape v.data).map String.mk).getD "")

/-- The last loop of `ParseMediaType`: the parameters written with a star (RFC 2231) are
decoded and joined, and stored under their base name. -/
def stitch : List (String × Params) → Params → Params
  | [], params => params
  | (key, pieceMap) :: more, params =>
    match get? pieceMap (key ++ "*") with
    | some v =>
      match decode2231Enc v with
      | some decv => stitch more (set params key decv)
      | none => stitch more params
    | none =>
      let r := stitchPieces key pieceMap (pieceMap.length + 1) 0 false ""
      if r.1 then stitch more (set params key r.2) else stitch more params

/-- The loop `for len(v) > 0` of `ParseMediaType` over the parameters. Every round reads
one parameter, so the length of the input bounds the number of rounds. A parameter with a
star in its name goes to `continuation` under the name before the star. The result is the
two maps, or the error with the media type that Go returns beside it. -/
def parseParams (mediatype : String) :
    Nat → List Char → Params → List (String × Params) →
      (String × Option Params × Option Error) ⊕ (Params × List (String × Params))
  | 0, _, params, continuation => Sum.inr (params, continuation)
  | fuel + 1, v, params, continuation =>
    let v := strings.trimLeftSpace v
    if v.isEmpty then Sum.inr (params, continuation)
    else
      let (key, value, rest) := consumeMediaParam v
      if key.isEmpty then
        if strings.trimSpaceList rest = [';'] then Sum.inr (params, continuation)
        else Sum.inl (mediatype, none, some (Error.mime "mime: invalid media parameter"))
      else
        let key := String.mk key
        let value := String.mk value
        if key.data.contains '*' then
          let baseName := String.mk (key.data.takeWhile (· ≠ '*'))
          let pmap := (get? continuation baseName).getD []
          match get? pmap key with
          | some old =>
            if old ≠ value then
              Sum.inl ("", none, some (Error.mime "mime: duplicate parameter name"))
            else parseParams mediatype fuel rest params continuation
          | none =>
            parseParams mediatype fuel rest params (set continuation baseName (set pmap key value))
        else
          match get? params key with
          | some old =>
            if old ≠ value then
              Sum.inl ("", none, some (Error.mime "mime: duplicate parameter name"))
            else parseParams mediatype fuel rest params continuation
          | none => parseParams mediatype fuel rest (set params key value) continuation

/-- Go `mime.ParseMediaType`: the media type in lower case and trimmed, the parameters, and
the error. -/
def ParseMediaType (v : String) : String × Option Params × Option Error :=
  let base := v.data.takeWhile (· ≠ ';')
  let mediatype := String.mk (strings.trimSpaceList (base.map strings.toLowerChar))
  match checkMediaTypeDisposition mediatype.data with
  | some err => ("", none, some err)
  | none =>
    match parseParams mediatype (v.length + 1) (v.data.drop base.length) [] [] with
    | Sum.inl r => r
    | Sum.inr (params, continuation) => (mediatype, some (stitch continuation params), none)

/-- The table `builtinTypesLower` of Go, the registry of a host without a MIME types file
of its own. -/
def builtinTypesLower : Params :=
  [(".avif", "image/avif"), (".css", "text/css; charset=utf-8"), (".gif", "image/gif"),
   (".htm", "text/html; charset=utf-8"), (".html", "text/html; charset=utf-8"),
   (".jpeg", "image/jpeg"), (".jpg", "image/jpeg"),
   (".js", "text/javascript; charset=utf-8"), (".json", "application/json"),
   (".mjs", "text/javascript; charset=utf-8"), (".pdf", "application/pdf"),
   (".png", "image/png"), (".svg", "image/svg+xml"), (".wasm", "application/wasm"),
   (".webp", "image/webp"), (".xml", "text/xml; charset=utf-8")]

/-- Go `mime.TypeByExtension` over the built-in table: the entry of the extension as
written, else of the extension in lower case, else the empty string. -/
def builtinTypeByExtension (ext : String) : String :=
  match get? builtinTypesLower ext with
  | some v => v
  | none => index builtinTypesLower (strings.ToLower ext)

end mime

/-! ## Package `mime/multipart`: the form that was read -/

namespace multipart

/-- An opened `multipart.File`, as far as `io.Copy` sees it: the bytes that reading
delivers, and how reading ends, with `none` for the end of the file and an error
otherwise. -/
structure File where
  /-- The bytes delivered before reading ends. -/
  data : List Byte
  /-- The error that ends reading, `none` for a clean end of file. -/
  err : Option Error
  deriving DecidableEq, Repr

/-- Go `multipart.FileHeader`, the file part of a form: its file name, and the result of
`Open ()` (a part kept in memory always opens; one spilled to disk may fail to). -/
structure FileHeader where
  /-- The field `Filename`. -/
  Filename : String
  /-- The result of the method `Open ()`. -/
  Open : Except Error File

/-- Go `multipart.Form`: the text values and the file parts, by field name. -/
structure Form where
  /-- The field `Value`, a `map[string][]string`. -/
  Value : String → List String
  /-- The field `File`, a `map[string][]*FileHeader`. -/
  File : String → List FileHeader

end multipart

/-! ## Package `net/textproto` and the writer of `mime/multipart` -/

namespace textproto

/-- Go `textproto.MIMEHeader`, a `map[string][]string`, as the list of the entries of the
map literal. -/
abbrev MIMEHeader := List (String × List String)

end textproto

namespace multipart

/-- The order of Go strings (`<=`), on lists of characters. -/
def leList : List Char → List Char → Bool
  | [], _ => true
  | _ :: _, [] => false
  | a :: s, b :: t => a.toNat < b.toNat || (a == b && leList s t)

/-- Go `slices.Sort (keys)` followed by the loop over the keys, as `CreatePart` does: the
entries of the header in the order of their keys. -/
def sortedEntries (header : textproto.MIMEHeader) : textproto.MIMEHeader :=
  header.insertionSort (fun a b => leList a.1.data b.1.data = true)

/-- The lines that `CreatePart` writes for a header: `key: value\r\n` for every value of
every key, keys sorted. -/
def headerLines (header : textproto.MIMEHeader) : String :=
  String.join ((sortedEntries header).map
    (fun kv => String.join (kv.2.map (fun v => kv.1 ++ ": " ++ v ++ "\r\n"))))

/-- The part of a `multipart.Writer` being written (Go `part`). -/
structure Part where
  /-- Whether the part was closed. -/
  closed : Bool
  /-- The last write error (Go `we`). -/
  we : Option Error
  deriving DecidableEq, Repr

/-- Go `multipart.Writer`. The field `w` is the `bytes.Buffer` that the writer was made
for (the buffer `message` of `handler`, which the writer shares), given by its content. -/
structure Writer where
  /-- The content of the underlying buffer. -/
  w : String
  /-- The boundary token. -/
  boundary : String
  /-- The part created last, if any. -/
  lastpart : Option Part
  deriving DecidableEq, Repr

/-- Go `bytes.Buffer.Write` on the buffer of the writer: appends, and never reports an
error. -/
def Writer.bufferWrite (mw : Writer) (d : String) : Writer × Option Error :=
  ({ mw with w := mw.w ++ d }, none)

/-- Go `multipart.NewWriter (w)`, with the token that `randomBoundary ()` drew. -/
def NewWriter (boundary : String) (w : String) : Writer :=
  { w := w, boundary := boundary, lastpart := none }

/-- Go `Writer.Boundary`. -/
def Writer.Boundary (mw : Writer) : String := mw.boundary

/-- Go `Writer.CreatePart`: closes the part before, writes the delimiter line (after a
line end if a part came before), the header lines and an empty line, and makes the new
part the last one. -/
def Writer.CreatePart (mw : Writer) (header : textproto.MIMEHeader) : Writer × Option Error :=
  match (match mw.lastpart with
         | some p => p.we
         | none => none) with
  | some err => ({ mw with lastpart := mw.lastpart.map (fun p => { p with closed := true }) }, some err)
  | none =>
    let b :=
      (if mw.lastpart.isSome then "\r\n--" ++ mw.boundary ++ "\r\n"
       else "--" ++ mw.boundary ++ "\r\n") ++ headerLines header ++ "\r\n"
    let (mw, err) := mw.bufferWrite b
    if err ≠ none then ({ mw with lastpart := mw.lastpart.map (fun p => { p with closed := true }) }, err)
    else ({ mw with lastpart := some { closed := false, we := none } }, none)

/-- Go `part.Write` on the part created last: refused when the part is closed, else
written to the buffer, a write error being kept in the part. -/
def Writer.partWrite (mw : Writer) (d : String) : Writer × Option Error :=
  match mw.lastpart with
  | none => (mw, some (Error.new "multipart: can't write to finished part"))
  | some p =>
    if p.closed then (mw, some (Error.new "multipart: can't write to finished part"))
    else
      let (mw, err) := mw.bufferWrite d
      if err ≠ none then ({ mw with lastpart := some { p with we := err } }, err) else (mw, none)

/-- Go `Writer.Close`: closes the last part and writes the closing delimiter. -/
def Writer.Close (mw : Writer) : Writer × Option Error :=
  match (match mw.lastpart with
         | some p => p.we
         | none => none) with
  | some err => ({ mw with lastpart := mw.lastpart.map (fun p => { p with closed := true }) }, some err)
  | none =>
    let mw := { mw with lastpart := none }
    mw.bufferWrite ("\r\n--" ++ mw.boundary ++ "--\r\n")

end multipart

/-! ## The streaming base64 encoder and `io.Copy` -/

namespace base64

/-- The state of Go `base64.NewEncoder (StdEncoding, w)`: the bytes, fewer than three,
that wait for a full group, and the error kept. The destination `w` is the last part of
the multipart writer that is passed along. -/
structure Encoder where
  /-- The bytes waiting (Go `buf [:nbuf]`). -/
  buf : List Byte
  /-- The error kept (Go `err`). -/
  err : Option Error
  deriving DecidableEq, Repr

/-- Go `base64.NewEncoder`. -/
def NewEncoder : Encoder := { buf := [], err := none }

/-- Go `encoder.Write`: the bytes waiting and the new ones are encoded in groups of three
and written; what is left over, fewer than three bytes, waits. -/
def Encoder.Write (e : Encoder) (mw : multipart.Writer) (p : List Byte) :
    Encoder × multipart.Writer × Option Error :=
  if e.err ≠ none then (e, mw, e.err)
  else
    let all := e.buf ++ p
    let n := all.length / 3 * 3
    if n = 0 then ({ e with buf := all }, mw, none)
    else
      let (mw, err) := mw.partWrite (String.mk (encodeList (all.take n)))
      if err ≠ none then ({ e with buf := [], err := err }, mw, err)
      else ({ e with buf := all.drop n }, mw, none)

/-- Go `encoder.Close`: the bytes still waiting are encoded, with padding, and written. -/
def Encoder.Close (e : Encoder) (mw : multipart.Writer) : multipart.Writer × Option Error :=
  if e.err = none ∧ e.buf ≠ [] then mw.partWrite (String.mk (encodeList e.buf))
  else (mw, e.err)

end base64

namespace io

/-- Go `io.Copy (encoder, src)`: everything that `src` delivers is written to the encoder
(which encodes the same whatever the sizes of the pieces it is given), and the error that
ended reading, or a write error, is returned. -/
def Copy (e : base64.Encoder) (mw : multipart.Writer) (src : multipart.File) :
    base64.Encoder × multipart.Writer × Option Error :=
  let (e, mw, err) := e.Write mw src.data
  if err ≠ none then (e, mw, err) else (e, mw, src.err)

end io

/-! ## The program `main.go` -/

/-- Redirect here when the contact form submission succeeds. -/
def success_page : String := "http://www.example.com/thankyou.html"
/-- Redirect here when the contact form submission fails. -/
def failure_page : String := "http://www.example.com/problem.html"
/-- The address the form is mailed from. -/
def sender : String := "my_contact_form@example.com"
/-- The address the form is mailed to. -/
def recipient : String := "my_personal_email@my_provider.com"
/-- The subject line. -/
def subject : String := "contact me"
/-- The character set. -/
def charset : String := "UTF-8"
/-- The SES region. -/
def region : String := "us-west-2"

/-- Go `events.APIGatewayProxyRequest`, the two fields that are read. -/
structure APIGatewayProxyRequest where
  /-- The field `Headers`, a `map[string]string`. -/
  Headers : String → String
  /-- The field `Body`. -/
  Body : String

/-- Go `events.APIGatewayProxyResponse`, the two fields that are set. -/
structure APIGatewayProxyResponse where
  /-- The field `StatusCode`. -/
  StatusCode : Nat
  /-- The field `Headers`, as the list of the entries of the map literal. -/
  Headers : List (String × String)
  deriving DecidableEq, Repr

/-- What the program takes from outside. -/
structure Env where
  /-- The result of `multipart.NewReader (bytes.NewReader (decoded), boundary).ReadForm
  (16777216)` for the decoded body and the boundary: a form or an error. -/
  ReadForm : List Byte → String → Except Error multipart.Form
  /-- Go `mime.TypeByExtension` with the registry of the host: the MIME type of an
  extension (written with its dot), the empty string when it knows none. -/
  TypeByExtension : String → String
  /-- The token that `randomBoundary ()` draws for the writer of this run. -/
  randomBoundary : String
  /-- The error of `session.NewSession`, `none` when the session is made. -/
  NewSession : Option Error
  /-- The error of `svc.SendRawEmail` for the raw message, `none` when it is sent. -/
  SendRawEmail : String → Option Error

/-- The function `confirmation`: make the browser load the page at the url. -/
def confirmation (url : String) : APIGatewayProxyResponse × Option Error :=
  let res : APIGatewayProxyResponse := { StatusCode := 301, Headers := [("Location", url)] }
  (res, none)

/-- The function `form_fields`: the contact form fields from the base64 encoded request
body. The results are the pointer to the form (`none` for `nil`) and the error. -/
def form_fields (env : Env) (req : APIGatewayProxyRequest) :
    Option multipart.Form × Option Error :=
  let (decoded, err) := base64.DecodeString req.Body
  if err ≠ none then (none, err)
  else
    let (mediatype, parts, err) := mime.ParseMediaType (req.Headers "content-type")
    if err ≠ none then (none, err)
    else if !strings.HasPrefix mediatype "multipart/" then (none, err)
    else
      match env.ReadForm decoded (mime.index (parts.getD []) "boundary") with
      | Except.ok form => (some form, none)
      | Except.error e => (none, some e)

/-- The function `email_body`: make a multipart writer on the buffer `message` and write
the first part, the text of the e-mail. `form` is a pointer; reading `form.Value` through
a nil pointer panics. -/
def email_body (env : Env) (form : Option multipart.Form) (message : String) :
    Run (multipart.Writer × Option Error) :=
  let mw := multipart.NewWriter env.randomBoundary message
  let h : textproto.MIMEHeader :=
    [("Content-Type", ["text/plain; charset=utf-8"]),
     ("Content-Transfer-Encoding", ["quoted-printable"])]
  let (mw, err) := mw.CreatePart h
  if err ≠ none then Run.ret (mw, err)
  else
    match form with
    | none => Run.panic
    | some form =>
      let field := strings.Join (form.Value "office") "\n"
      if field ≠ "" then
        let err := some (Error.new "spambot attack suspected")
        Run.ret (mw, err)
      else
        let field := strings.Join (form.Value "name") "\n"
        let field := if field = "" then "(withheld)" else field
        let (mw, err) := mw.partWrite ("name:  " ++ field ++ "\n\n")
        if err ≠ none then Run.ret (mw, err)
        else
          let field := strings.Join (form.Value "email") "\n"
          let field := if field = "" then "(withheld)" else field
          let (mw, err) := mw.partWrite ("email: " ++ field ++ "\n\n")
          if err ≠ none then Run.ret (mw, err)
          else
            let field := strings.Join (form.Value "message") "\n"
            let field := if field = "" then "(withheld)" else field
            let (mw, err) := mw.partWrite ("message:\n\n" ++ field)
            Run.ret (mw, err)

/-- The MIME type that `unattachable` finds for a file name (its first two statements). -/
def mimetype_of (env : Env) (filename : String) : String :=
  let mimetype := ""
  let mimetype :=
    if strings.Contains filename "." then
      let fields := strings.Split filename '.'
      env.TypeByExtension ("." ++ fields.getLastD "")
    else mimetype
  if mimetype = "" then "application/octet-stream" else mimetype

/-- The header that `unattachable` gives to the part of a file. -/
def attachment_header (env : Env) (fileheader : multipart.FileHeader) : textproto.MIMEHeader :=
  [("Content-Type", [mimetype_of env fileheader.Filename]),
   ("Content-Transfer-Encoding", ["base64"]),
   ("Content-Disposition", ["attachment; filename=\"" ++ fileheader.Filename ++ "\""])]

/-- The function `unattachable`: load the content of the file into the next part of the
multipart message, base64 encoded. -/
def unattachable (env : Env) (mw : multipart.Writer) (fileheader : multipart.FileHeader) :
    multipart.Writer × Option Error :=
  let h := attachment_header env fileheader
  match fileheader.Open with
  | Except.error err => (mw, some err)
  | Except.ok attachment_src =>
    let (mw, err) := mw.CreatePart h
    if err ≠ none then (mw, err)
    else
      let encoder := base64.NewEncoder
      let (encoder, mw, err) := io.Copy encoder mw attachment_src
      if err ≠ none then (mw, err)
      else encoder.Close mw

/-- The function `header_of`: the e-mail header for a boundary. -/
def header_of (boundary : String) : String :=
  let header := ""
  let header := header ++ "MIME-Version: 1.0\n"
  let header := header ++ "Content-Disposition: inline\n"
  let header := header ++ ("Content-Type: multipart/mixed; boundary=\"" ++ boundary ++ "\"\n")
  let header := header ++ ("From: " ++ sender ++ "\n")
  let header := header ++ ("To: " ++ recipient ++ "\n")
  let header := header ++ ("Subject: " ++ subject ++ "\n\n")
  header

/-- The function `unsendable`: put the header and the message together and mail them with
the SES raw message call. -/
def unsendable (env : Env) (header message : String) : Option Error :=
  let data := String.join [header, message]
  let err := env.NewSession
  if err = none then env.SendRawEmail data else err

/-- The loop of `handler` over the file parts of the field `attachment`: a part is
attached while no error has occurred and when its file name is not empty. -/
def attach_all (env : Env) :
    List multipart.FileHeader → multipart.Writer × Option Error → multipart.Writer × Option Error
  | [], st => st
  | fileheader :: rest, (mw, err) =>
    if err = none ∧ fileheader.Filename ≠ "" then attach_all env rest (unattachable env mw fileheader)
    else attach_all env rest (mw, err)

/-- What a run of `handler` does: its result (the response and the error, or a panic) and
the calls of `unsendable` it made, each with its header and its message. -/
structure Outcome where
  /-- The result of the run. -/
  result : Run (APIGatewayProxyResponse × Option Error)
  /-- The arguments of the calls of `unsendable`, in order. -/
  sent : List (String × String)
  deriving DecidableEq, Repr

/-- The function `handler`: get the form fields from the request, e-mail them, and show a
confirmation. -/
def handler (env : Env) (req : APIGatewayProxyRequest) : Outcome :=
  let message := ""
  let (form, err) := form_fields env req
  if err ≠ none then { result := Run.ret (confirmation failure_page), sent := [] }
  else
    match email_body env form message with
    | Run.panic => { result := Run.panic, sent := [] }
    | Run.ret (mw, err) =>
      match form with
      | none => { result := Run.panic, sent := [] }
      | some form =>
        let (mw, err) := attach_all env (form.File "attachment") (mw, err)
        if err ≠ none then { result := Run.ret (confirmation failure_page), sent := [] }
        else
          let (mw, cerr) := mw.Close
          if cerr ≠ none then { result := Run.ret (confirmation failure_page), sent := [] }
          else
            let header := header_of mw.Boundary
            if unsendable env header mw.w ≠ none then
              { result := Run.ret (confirmation failure_page), sent := [(header, mw.w)] }
            else { result := Run.ret (confirmation success_page), sent := [(header, mw.w)] }

/-! ## Package `mime/quotedprintable`: the reader

The program never calls it; it is what a receiver applies to a part that is declared
`Content-Transfer-Encoding: quoted-printable`. -/

namespace quotedprintable

/-- Go `isQPDiscardWhitespace`. -/
def isQPDiscardWhitespace (c : Char) : Bool := c = '\n' || c = '\r' || c = ' ' || c = '\t'

/-- Go `fromHex`: the value of a hexadecimal digit, in either case. -/
def fromHex (c : Char) : Option Nat :=
  if '0' ≤ c ∧ c ≤ '9' then some (c.toNat - '0'.toNat)
  else if 'A' ≤ c ∧ c ≤ 'F' then some (c.toNat - 'A'.toNat + 10)
  else if 'a' ≤ c ∧ c ≤ 'f' then some (c.toNat - 'a'.toNat + 10)
  else none

/-- The `switch` of Go `Reader.Read` over the characters of one line: `=` and two
hexadecimal digits stand for the byte they name (given as the character of that code); a
`=` that is not followed by two such digits, and not by a line end, stands for itself; tab
and line ends, characters from 0x80 on and the printable ASCII characters stand for
themselves; any other character is an error. -/
def decodeLine : List Char → List Char × Option Error
  | [] => ([], none)
  | '=' :: a :: b :: rest =>
    match fromHex a, fromHex b with
    | some x, some y =>
      let r := decodeLine rest
      (Char.ofNat (x * 16 + y) :: r.1, r.2)
    | _, _ =>
      if a ≠ '\r' ∧ a ≠ '\n' then
        let r := decodeLine (a :: b :: rest)
        ('=' :: r.1, r.2)
      else ([], some (Error.new "quotedprintable: invalid hex byte"))
  | ['=', a] =>
    if a ≠ '\r' ∧ a ≠ '\n' then
      let r := decodeLine [a]
      ('=' :: r.1, r.2)
    else ([], some (Error.new "unexpected EOF"))
  | ['='] => ([], some (Error.new "unexpected EOF"))
  | c :: rest =>
    if c = '\t' ∨ c = '\r' ∨ c = '\n' ∨ 0x80 ≤ c.toNat ∨ (' ' ≤ c ∧ c ≤ '~') then
      let r := decodeLine rest
      (c :: r.1, r.2)
    else ([], some (Error.new "quotedprintable: invalid unescaped byte in body"))

/-- The lines of the input as `ReadSlice` with the delimiter `\n` delivers them: every line
with its line end, and last what follows the last line end (possibly nothing); `cur`
holds, reversed, the line being read. -/
def readLines : List Char → List Char → List (List Char)
  | [], cur => [cur.reverse]
  | c :: s, cur =>
    if c = '\n' then (c :: cur).reverse :: readLines s [] else readLines s (c :: cur)

/-- What Go `Reader.Read` makes of one line before decoding it: white space at its end is
dropped; a `=` at the end is a soft line break, which takes the line end away (and is an
error, reported after the line, unless the line end follows it at once or the input ends
there); otherwise the line end is put back. -/
def prepareLine (wholeLine : List Char) (atEOF : Bool) : List Char × Bool :=
  let hasLF := wholeLine.getLast? = some '\n'
  let hasCR := wholeLine.reverse.take 2 = ['\n', '\r']
  let line := (wholeLine.reverse.dropWhile isQPDiscardWhitespace).reverse
  if line.getLast? = some '=' then
    let rightStripped := wholeLine.drop line.length
    let line := line.dropLast
    (line, !strings.startsWith rightStripped ['\n'] && !strings.startsWith rightStripped ['\r', '\n']
      && !(rightStripped.isEmpty && 0 < line.length && atEOF))
  else if hasLF then
    (if hasCR then line ++ ['\r', '\n'] else line ++ ['\n'], false)
  else (line, false)

/-- The reader run over the lines of the input until the end or the first error. -/
def decodeLines : List (List Char) → List Char × Option Error
  | [] => ([], none)
  | wholeLine :: more =>
    let (line, bad) := prepareLine wholeLine more.isEmpty
    let d := decodeLine line
    if d.2 ≠ none then d
    else if bad then (d.1, some (Error.new "quotedprintable: invalid bytes after ="))
    else
      let r := decodeLines more
      (d.1 ++ r.1, r.2)

/-- Reading `quotedprintable.NewReader` over the text to its end: what was decoded, and
the error if decoding stopped at one. -/
def decode (s : String) : String × Option Error :=
  let r := decodeLines (readLines s.data [])
  (String.mk r.1, r.2)

end quotedprintable

/-! ## Definitions that state the claims -/

namespace base64

/-- A text without line ends is well formed base64 when it is a run of groups of four
characters of the alphabet, after which may come one last padded group: two characters
of the alphabet and `==`, or three and `=`. -/
inductive WellFormed : List Char → Prop where
  /-- The empty text. -/
  | done : WellFormed []
  /-- A last group that stands for one byte. -/
  | pad2 (a b : Char) : a ∈ encodeStd → b ∈ encodeStd → WellFormed [a, b, '=', '=']
  /-- A last group that stands for two bytes. -/
  | pad1 (a b c : Char) : a ∈ encodeStd → b ∈ encodeStd → c ∈ encodeStd →
      WellFormed [a, b, c, '=']
  /-- A group that stands for three bytes, and what follows it. -/
  | group (a b c d : Char) (rest : List Char) : a ∈ encodeStd → b ∈ encodeStd →
      c ∈ encodeStd → d ∈ encodeStd → WellFormed rest → WellFormed (a :: b :: c :: d :: rest)

/-- A text is valid base64 of the standard alphabet when it is well formed once its line
ends (CR and LF, which may stand anywhere) are taken out. -/
def Valid (s : String) : Prop := WellFormed (s.data.filter (fun c => !isNewline c))

end base64

/-- The value of a text field as the e-mail shows it: the submitted values joined with a
line end, or the placeholder when that is empty. -/
def shown (form : multipart.Form) (name : String) : String :=
  if strings.Join (form.Value name) "\n" = "" then "(withheld)"
  else strings.Join (form.Value name) "\n"

/-- The text of the e-mail: the three labelled fields in their fixed order. -/
def text_content (form : multipart.Form) : String :=
  "name:  " ++ shown form "name" ++ "\n\n" ++ ("email: " ++ shown form "email" ++ "\n\n") ++
    ("message:\n\n" ++ shown form "message")

/-- The header lines of the text part, as they stand in the message. -/
def text_header_lines : String :=
  "Content-Transfer-Encoding: quoted-printable\r\nContent-Type: text/plain; charset=utf-8\r\n"

/-- The header lines of the part of a file, as they stand in the message. -/
def attachment_header_lines (env : Env) (filename : String) : String :=
  "Content-Disposition" ++ ": " ++ ("attachment; filename=\"" ++ filename ++ "\"") ++ "\r\n" ++
    ("Content-Transfer-Encoding" ++ ": " ++ "base64" ++ "\r\n") ++
    ("Content-Type" ++ ": " ++ mimetype_of env filename ++ "\r\n")

/-- One part of a multipart body: its header lines and its content. -/
structure MimePart where
  /-- The header lines, each ended by CR LF. -/
  headerLines : String
  /-- The content. -/
  content : String
  deriving DecidableEq, Repr

/-- A part as it stands after its delimiter line: header lines, an empty line, content. -/
def MimePart.render (p : MimePart) : String := p.headerLines ++ "\r\n" ++ p.content

/-- The parts that follow a part: each after a line end and a delimiter line. -/
def render_more (boundary : String) : List MimePart → String
  | [] => ""
  | p :: rest => "\r\n--" ++ boundary ++ "\r\n" ++ p.render ++ render_more boundary rest

/-- The parts of a multipart body one after the other: each after a delimiter line of the
boundary, with a line end between a part and the delimiter line that follows it. -/
def render_parts (boundary : String) : List MimePart → String
  | [] => ""
  | p :: rest => "--" ++ boundary ++ "\r\n" ++ p.render ++ render_more boundary rest

/-- A multipart body: its parts, and the closing delimiter line. -/
def render_body (boundary : String) (parts : List MimePart) : String :=
  render_parts boundary parts ++ ("\r\n--" ++ boundary ++ "--\r\n")

/-- The text part of the e-mail for a form. -/
def text_part (form : multipart.Form) : MimePart :=
  { headerLines := text_header_lines, content := text_content form }

/-- The bytes of a file part, when it opens. -/
def file_data (fileheader : multipart.FileHeader) : List Byte :=
  match fileheader.Open with
  | Except.ok f => f.data
  | Except.error _ => []

/-- The part of the e-mail for a file part. -/
def attachment_part (env : Env) (fileheader : multipart.FileHeader) : MimePart :=
  { headerLines := attachment_header_lines env fileheader.Filename,
    content := base64.EncodeToString (file_data fileheader) }

/-- The file parts of a list that have a file name, in their order. -/
def named (files : List multipart.FileHeader) : List multipart.FileHeader :=
  files.filter (fun fileheader => fileheader.Filename ≠ "")

/-- The body that the claims expect for a form: the text part, then the parts of the file
parts of the field attachment that have a name, and the closing delimiter line. -/
def built_body (env : Env) (form : multipart.Form) : String :=
  render_body env.randomBoundary
    (text_part form :: (named (form.File "attachment")).map (attachment_part env))

/-- A part that is open and has seen no write error. -/
def open_part : multipart.Part := { closed := false, we := none }

/-- A writer whose last part, if it has one, has seen no write error. -/
def multipart.Writer.healthy (mw : multipart.Writer) : Prop :=
  ∀ p, mw.lastpart = some p → p.we = none

/-- The delimiter line that `CreatePart` writes before a part. -/
def delimiter (mw : multipart.Writer) : String :=
  if mw.lastpart.isSome then "\r\n--" ++ mw.boundary ++ "\r\n" else "--" ++ mw.boundary ++ "\r\n"

/-- Whether a file part opens and is read to its end without an error. -/
def reads_clean (fileheader : multipart.FileHeader) : Prop :=
  ∃ f, fileheader.Open = Except.ok f ∧ f.err = none

/-- The text after the last dot of a file name (the whole name when it has no dot). -/
def after_last_dot (filename : String) : String :=
  String.mk (filename.data.reverse.takeWhile (· ≠ '.')).reverse

/-- The content type that the claims expect for a file name: the type that the registry
has for the text after the last dot, when the name has a dot and the registry knows a type
for it, and the generic binary type otherwise. -/
def declared_type (env : Env) (filename : String) : String :=
  if '.' ∈ filename.data ∧ env.TypeByExtension ("." ++ after_last_dot filename) ≠ "" then
    env.TypeByExtension ("." ++ after_last_dot filename)
  else "application/octet-stream"

/-! ## Inputs for the examples -/

/-- A form with the given values of the fields office, name, email and message, and the
given file parts of the field attachment. -/
def form_of (office name email message : List String) (files : List multipart.FileHeader) :
    multipart.Form :=
  { Value := fun k =>
      if k = "office" then office else if k = "name" then name
      else if k = "email" then email else if k = "message" then message else [],
    File := fun k => if k = "attachment" then files else [] }

/-- A file part kept in memory: it opens, and reading delivers its bytes. -/
def file_of (filename : String) (data : List Byte) : multipart.FileHeader :=
  { Filename := filename, Open := Except.ok { data := data, err := none } }

/-- An environment in which the form reader delivers the given form, the registry is the
built-in one of Go, SES accepts the message, and the boundary is the given token. -/
def env_of (form : multipart.Form) (boundary : String) : Env :=
  { ReadForm := fun _ _ => Except.ok form,
    TypeByExtension := mime.builtinTypeByExtension,
    randomBoundary := boundary,
    NewSession := none,
    SendRawEmail := fun _ => none }

/-- A request with a body and a value of the header content-type. -/
def request_of (body contentType : String) : APIGatewayProxyRequest :=
  { Headers := fun k => if k = "content-type" then contentType else "", Body := body }

/-- A request that declares a multipart form. -/
def form_request : APIGatewayProxyRequest := request_of "AQID" "multipart/form-data; boundary=abc"

/-- A request that declares JSON, with an empty body. -/
def json_request : APIGatewayProxyRequest := request_of "" "application/json"

/-! ## Definitions for the claims on the header, the streams and the request headers -/

/-- The value of the header `Content-Disposition` that `unattachable` gives to the part of
a file with this name. -/
def disposition_value (filename : String) : String :=
  "attachment; filename=\"" ++ filename ++ "\""

/-- Whether a character may stand in a file name for the header to read back: not a
double quote, not a backslash, not a line end. -/
def plain_char (c : Char) : Bool := c ≠ '"' && c ≠ '\\' && c ≠ '\r' && c ≠ '\n'

/-- An opened stream with its state: the file it reads, and whether it was closed. -/
structure Stream where
  /-- The file that the stream reads. -/
  file : multipart.File
  /-- Whether `Close ()` was called on it. -/
  closed : Bool
  deriving DecidableEq, Repr

/-- The method `Open ()` of a file part, giving the stream in its state: open. -/
def open_stream (fileheader : multipart.FileHeader) : Except Error Stream :=
  match fileheader.Open with
  | Except.ok f => Except.ok { file := f, closed := false }
  | Except.error err => Except.error err

/-- Go `io.Copy (encoder, src)` on a stream: reads the stream to its end, and leaves it as
it was, open or closed (`io.Copy` does not close its source). -/
def copy_stream (e : base64.Encoder) (mw : multipart.Writer) (src : Stream) :
    base64.Encoder × multipart.Writer × Option Error × Stream :=
  let (e, mw, err) := io.Copy e mw src.file
  (e, mw, err, src)

/-- The function `unattachable` with the state of the stream it opened: the third result
is the stream `attachment_src` as it is when the function returns, `none` when `Open ()`
failed. The function has no call of `attachment_src.Close ()` and no `defer`, so every
`return` leaves the stream as the statements before it left it. -/
def unattachable_stream (env : Env) (mw : multipart.Writer)
    (fileheader : multipart.FileHeader) : multipart.Writer × Option Error × Option Stream :=
  let h := attachment_header env fileheader
  match open_stream fileheader with
  | Except.error err => (mw, some err, none)
  | Except.ok attachment_src =>
    let (mw, err) := mw.CreatePart h
    if err ≠ none then (mw, err, some attachment_src)
    else
      let encoder := base64.NewEncoder
      let (encoder, mw, err, attachment_src) := copy_stream encoder mw attachment_src
      if err ≠ none then (mw, err, some attachment_src)
      else
        let r := encoder.Close mw
        (r.1, r.2, some attachment_src)

/-- A request that has its content type under the key `Content-Type` only. -/
def cased_request (body contentType : String) : APIGatewayProxyRequest :=
  { Headers := fun k => if k = "Content-Type" then contentType else "", Body := body }

/-- A file part spilled to disk whose reading fails after some bytes. -/
def broken_file (filename : String) (data : List Byte) : multipart.FileHeader :=
  { Filename := filename, Open := Except.ok { data := data, err := some (Error.file "read") } }

/-- A form like `form_of`, with file parts under another field name as well. -/
def form_with_other (office name email message : List String)
    (files other : List multipart.FileHeader) : multipart.Form :=
  { Value := fun k =>
      if k = "office" then office else if k = "name" then name
      else if k = "email" then email else if k = "message" then message else [],
    File := fun k => if k = "attachment" then files else if k = "photo" then other else [] }

/-- An environment like `env_of` in which the form reader delivers the first form for the
body of the bytes 1, 2, 3 and the second form for every other body. -/
def env_two (form1 form2 : multipart.Form) (boundary : String) : Env :=
  { ReadForm := fun decoded _ => if decoded = [1, 2, 3] then Except.ok form1 else Except.ok form2,
    TypeByExtension := mime.builtinTypeByExtension,
    randomBoundary := boundary,
    NewSession := none,
    SendRawEmail := fun _ => none }

/-! ## A request with a multipart body -/

/-- A multipart form body with the boundary `abc`: one field, name, of value `Ann`. -/
def sample_form_text : String :=
  "--abc\r\nContent-Disposition: form-data; name=\"name\"\r\n\r\nAnn\r\n--abc--\r\n"

/-- The bytes of that body (the text is ASCII, a byte for each character). -/
def sample_form_bytes : List Byte := sample_form_text.data.map (fun c => Fin.ofNat c.toNat)

/-- The body of the request for that form: the bytes in base64. -/
def sample_form_body : String :=
  "LS1hYmMNCkNvbnRlbnQtRGlzcG9zaXRpb246IGZvcm0tZGF0YTsgbmFtZT0ibmFtZSINCg0KQW5uDQotLWFiYy0tDQo="

/-- The form that the form reader makes of these bytes: the value `Ann` of the field
name, and no file part. -/
def sample_form : multipart.Form := form_of [] ["Ann"] [] [] []

/-- An environment whose form reader answers for the bytes of the sample body, read with
the boundary `abc`, with the sample form, and rejects every other input, as the form
reader of Go rejects bytes that are no multipart body or a boundary that is not the one
of the body; the registry is the built-in one and SES accepts the message. -/
def env_sample (boundary : String) : Env :=
  { ReadForm := fun decoded b =>
      if decoded = sample_form_bytes ∧ b = "abc" then Except.ok sample_form
      else Except.error (Error.form "multipart: NextPart: EOF"),
    TypeByExtension := mime.builtinTypeByExtension,
    randomBoundary := boundary,
    NewSession := none,
    SendRawEmail := fun _ => none }

/-- The request with the sample body and its content type under the key `content-type`. -/
def sample_request : APIGatewayProxyRequest :=
  request_of sample_form_body "multipart/form-data; boundary=abc"

/-- The same request with the content type under the key `Content-Type` instead. -/
def sample_request_cased : APIGatewayProxyRequest :=
  cased_request sample_form_body "multipart/form-data; boundary=abc"

/-! ## Lemmas on the multipart writer and on `email_body` -/

theorem headerLines_text :
    multipart.headerLines
      [("Content-Type", ["text/plain; charset=utf-8"]),
       ("Content-Transfer-Encoding", ["quoted-printable"])] = text_header_lines := by
  decide

theorem email_body_spam (env : Env) (form : multipart.Form) (message : String)
    (h : strings.Join (form.Value "office") "\n" ≠ "") :
    email_body env (some form) message =
      Run.ret ({ w := message ++ ("--" ++ env.randomBoundary ++ "\r\n" ++ text_header_lines ++ "\r\n"),
                 boundary := env.randomBoundary,
                 lastpart := some { closed := false, we := none } },
               some (Error.new "spambot attack suspected")) := by
  simp [email_body, multipart.NewWriter, multipart.Writer.CreatePart, multipart.Writer.bufferWrite,
    headerLines_text, h]

theorem email_body_ok (env : Env) (form : multipart.Form) (message : String)
    (h : strings.Join (form.Value "office") "\n" = "") :
    email_body env (some form) message =
      Run.ret ({ w := message ++ ("--" ++ env.randomBoundary ++ "\r\n" ++ text_header_lines ++ "\r\n")
                   ++ text_content form,
                 boundary := env.randomBoundary,
                 lastpart := some { closed := false, we := none } },
               none) := by
  simp [email_body, multipart.NewWriter, multipart.Writer.CreatePart, multipart.Writer.bufferWrite,
    multipart.Writer.partWrite, headerLines_text, h, text_content, shown, String.append_assoc]

/-! ## Lemmas on base64 -/

namespace base64

theorem decodeMap_encode : ∀ v : Fin 64, decodeMap (encode v.val) = some v.val := by decide

theorem decodeMap_encode_lt (v : Nat) (h : v < 64) : decodeMap (encode v) = some v :=
  decodeMap_encode ⟨v, h⟩

theorem decodeMap_pad : decodeMap '=' = none := by decide

theorem quantumBytes_four (b0 b1 b2 : Byte) :
    quantumBytes
      [(b0.val * 65536 + b1.val * 256 + b2.val) / 262144 % 64,
       (b0.val * 65536 + b1.val * 256 + b2.val) / 4096 % 64,
       (b0.val * 65536 + b1.val * 256 + b2.val) / 64 % 64,
       (b0.val * 65536 + b1.val * 256 + b2.val) % 64] = [b0, b1, b2] := by
  have h0 := b0.isLt
  have h1 := b1.isLt
  have h2 := b2.isLt
  simp only [quantumBytes, List.getD_cons_zero, List.getD_cons_succ, List.length_cons,
    List.length_nil, List.take]
  refine List.cons_eq_cons.mpr ⟨?_, List.cons_eq_cons.mpr ⟨?_, List.cons_eq_cons.mpr ⟨?_, rfl⟩⟩⟩ <;>
  · apply Fin.ext
    simp only [Fin.ofNat, Fin.val_mk]
    omega

theorem quantumBytes_three (b0 b1 : Byte) :
    quantumBytes
      [(b0.val * 65536 + b1.val * 256) / 262144 % 64,
       (b0.val * 65536 + b1.val * 256) / 4096 % 64,
       (b0.val * 65536 + b1.val * 256) / 64 % 64] = [b0, b1] := by
  have h0 := b0.isLt
  have h1 := b1.isLt
  simp only [quantumBytes, List.getD_cons_zero, List.getD_cons_succ, List.length_cons,
    List.length_nil, List.take, List.getD_nil]
  refine List.cons_eq_cons.mpr ⟨?_, List.cons_eq_cons.mpr ⟨?_, rfl⟩⟩ <;>
  · apply Fin.ext
    simp only [Fin.ofNat, Fin.val_mk]
    omega

theorem quantumBytes_two (b0 : Byte) :
    quantumBytes [(b0.val * 65536) / 262144 % 64, (b0.val * 65536) / 4096 % 64] = [b0] := by
  have h0 := b0.isLt
  simp only [quantumBytes, List.getD_cons_zero, List.getD_cons_succ, List.length_cons,
    List.length_nil, List.take, List.getD_nil]
  refine List.cons_eq_cons.mpr ⟨?_, rfl⟩
  apply Fin.ext
  simp only [Fin.ofNat, Fin.val_mk]
  omega

/-- Decoding what `Encode` wrote gives the bytes back, without an error. -/
theorem decodeList_encodeList : ∀ bs : List Byte, decodeList (encodeList bs) [] = (bs, none)
  | [] => rfl
  | [b0] => by
    have e0 := decodeMap_encode_lt ((b0.val * 65536) / 262144 % 64) (Nat.mod_lt _ (by decide))
    have e1 := decodeMap_encode_lt ((b0.val * 65536) / 4096 % 64) (Nat.mod_lt _ (by decide))
    simp [encodeList, decodeList, e0, e1, decodeMap_pad, isNewline, decodePadding]
    exact quantumBytes_two b0
  | [b0, b1] => by
    have e0 := decodeMap_encode_lt ((b0.val * 65536 + b1.val * 256) / 262144 % 64)
      (Nat.mod_lt _ (by decide))
    have e1 := decodeMap_encode_lt ((b0.val * 65536 + b1.val * 256) / 4096 % 64)
      (Nat.mod_lt _ (by decide))
    have e2 := decodeMap_encode_lt ((b0.val * 65536 + b1.val * 256) / 64 % 64)
      (Nat.mod_lt _ (by decide))
    simp [encodeList, decodeList, e0, e1, e2, decodeMap_pad, isNewline, decodePadding]
    exact quantumBytes_three b0 b1
  | b0 :: b1 :: b2 :: rest => by
    have ih := decodeList_encodeList rest
    have e0 := decodeMap_encode_lt ((b0.val * 65536 + b1.val * 256 + b2.val) / 262144 % 64)
      (Nat.mod_lt _ (by decide))
    have e1 := decodeMap_encode_lt ((b0.val * 65536 + b1.val * 256 + b2.val) / 4096 % 64)
      (Nat.mod_lt _ (by decide))
    have e2 := decodeMap_encode_lt ((b0.val * 65536 + b1.val * 256 + b2.val) / 64 % 64)
      (Nat.mod_lt _ (by decide))
    have e3 := decodeMap_encode_lt ((b0.val * 65536 + b1.val * 256 + b2.val) % 64)
      (Nat.mod_lt _ (by decide))
    simp [encodeList, decodeList, e0, e1, e2, e3, ih]
    rw [quantumBytes_four b0 b1 b2]
    rfl

/-- The round trip of `StdEncoding`: `DecodeString (EncodeToString (src))` is `src`. -/
theorem DecodeString_EncodeToString (src : List Byte) :
    DecodeString (EncodeToString src) = (src, none) := by
  simp [DecodeString, EncodeToString, decodeList_encodeList]

/-- Encoding a block of whole groups and then the rest is encoding the whole. -/
theorem encodeList_take_drop : ∀ (k : Nat) (bs : List Byte),
    encodeList (bs.take (3 * k)) ++ encodeList (bs.drop (3 * k)) = encodeList bs
  | 0, bs => by simp [encodeList]
  | k + 1, [] => by simp [encodeList]
  | k + 1, [b0] => by
    have h3 : 3 * (k + 1) = 3 * k + 1 + 1 + 1 := by omega
    simp only [h3, List.take_succ_cons, List.drop_succ_cons, List.take_nil, List.drop_nil,
      encodeList, List.append_nil]
  | k + 1, [b0, b1] => by
    have h3 : 3 * (k + 1) = 3 * k + 1 + 1 + 1 := by omega
    simp only [h3, List.take_succ_cons, List.drop_succ_cons, List.take_nil, List.drop_nil,
      encodeList, List.append_nil]
  | k + 1, b0 :: b1 :: b2 :: rest => by
    have ih := encodeList_take_drop k rest
    have h3 : 3 * (k + 1) = 3 * k + 1 + 1 + 1 := by omega
    rw [h3]
    simp only [List.take_succ_cons, List.drop_succ_cons, encodeList, List.cons_append, ih]

theorem decodeMap_isSome_iff (c : Char) : (∃ v, decodeMap c = some v) ↔ c ∈ encodeStd := by
  have hlen : encodeStd.length = 64 := by decide
  unfold decodeMap
  constructor
  · rintro ⟨v, hv⟩
    by_cases h : encodeStd.indexOf c < 64
    · rw [← hlen] at h
      exact List.indexOf_lt_length.mp h
    · simp [h] at hv
  · intro h
    have := List.indexOf_lt_length.mpr h
    rw [hlen] at this
    exact ⟨encodeStd.indexOf c, by simp [this]⟩

theorem decodeMap_none_iff (c : Char) : decodeMap c = none ↔ c ∉ encodeStd := by
  rw [← decodeMap_isSome_iff]
  cases h : decodeMap c with
  | none => simp
  | some v => simp

theorem newline_not_mem : ∀ c, isNewline c = true → c ∉ encodeStd := by
  intro c hc
  simp only [isNewline, Bool.or_eq_true, decide_eq_true_eq] at hc
  rcases hc with rfl | rfl <;> decide

theorem pad_not_mem : '=' ∉ encodeStd := by decide

theorem pad_not_newline : isNewline '=' = false := by decide

/-- The line ends that lead a text are dropped exactly when nothing but line ends is left
of it. -/
theorem dropWhile_newline_nil (s : List Char) :
    s.dropWhile isNewline = [] ↔ s.filter (fun c => !isNewline c) = [] := by
  induction s with
  | nil => simp
  | cons c s ih =>
    by_cases hc : isNewline c = true
    · simp [List.dropWhile, List.filter, hc, ih]
    · simp [List.dropWhile, List.filter, hc]

theorem filter_dropWhile_newline (s : List Char) :
    (s.dropWhile isNewline).filter (fun c => !isNewline c) = s.filter (fun c => !isNewline c) := by
  induction s with
  | nil => simp
  | cons c s ih =>
    by_cases hc : isNewline c = true
    · simp [List.dropWhile, List.filter, hc, ih]
    · simp [List.dropWhile, List.filter, hc]

theorem dropWhile_newline_head (s : List Char) (c : Char) (r : List Char)
    (h : s.dropWhile isNewline = c :: r) : isNewline c = false := by
  induction s with
  | nil => simp at h
  | cons d s ih =>
    by_cases hd : isNewline d = true
    · simp only [List.dropWhile, hd] at h
      exact ih h
    · simp only [List.dropWhile, hd] at h
      cases h
      simpa using hd

/-- What is left of a well formed text after `pre`, characters of the alphabet that start
a group: the cases by the number of these characters. -/
theorem wellFormed_nil_iff (pre : List Char) (hpre : ∀ c ∈ pre, c ∈ encodeStd)
    (hlen : pre.length ≤ 3) : WellFormed pre ↔ pre = [] := by
  constructor
  · intro h
    cases h with
    | done => rfl
    | pad2 a b _ _ => exact absurd (hpre '=' (by simp)) pad_not_mem
    | pad1 a b c _ _ _ => exact absurd (hpre '=' (by simp)) pad_not_mem
    | group a b c d rest _ _ _ _ _ => simp at hlen
  · rintro rfl
    exact WellFormed.done

theorem wf_four (a b c d : Char) (rest : List Char) (ha : a ∈ encodeStd) (hb : b ∈ encodeStd)
    (hc : c ∈ encodeStd) (hd : d ∈ encodeStd) :
    WellFormed (a :: b :: c :: d :: rest) ↔ WellFormed rest := by
  constructor
  · intro h
    cases h with
    | pad2 _ _ _ _ => exact absurd hc pad_not_mem
    | pad1 _ _ _ _ _ _ => exact absurd hd pad_not_mem
    | group _ _ _ _ _ _ _ _ _ h => exact h
  · exact WellFormed.group a b c d rest ha hb hc hd

theorem wf_pad3 (a b c : Char) (rest : List Char) (ha : a ∈ encodeStd) (hb : b ∈ encodeStd)
    (hc : c ∈ encodeStd) : WellFormed (a :: b :: c :: '=' :: rest) ↔ rest = [] := by
  constructor
  · intro h
    cases h with
    | pad2 _ _ _ _ => exact absurd hc pad_not_mem
    | pad1 _ _ _ _ _ _ => rfl
    | group _ _ _ _ _ _ _ _ hd _ => exact absurd hd pad_not_mem
  · rintro rfl
    exact WellFormed.pad1 a b c ha hb hc

theorem wf_pad2 (a b : Char) (rest : List Char) (ha : a ∈ encodeStd) (hb : b ∈ encodeStd) :
    WellFormed (a :: b :: '=' :: rest) ↔ rest = ['='] := by
  constructor
  · intro h
    cases h with
    | pad2 _ _ _ _ => rfl
    | pad1 _ _ _ _ _ hc => exact absurd hc pad_not_mem
    | group _ _ _ _ _ _ _ hc _ _ => exact absurd hc pad_not_mem
  · rintro rfl
    exact WellFormed.pad2 a b ha hb

theorem wf_first (c : Char) (rest : List Char) (h : WellFormed (c :: rest)) : c ∈ encodeStd := by
  cases h with
  | pad2 _ _ ha _ => exact ha
  | pad1 _ _ _ ha _ _ => exact ha
  | group _ _ _ _ _ ha _ _ _ _ => exact ha

theorem wf_second (a c : Char) (rest : List Char) (h : WellFormed (a :: c :: rest)) :
    c ∈ encodeStd := by
  cases h with
  | pad2 _ _ _ hb => exact hb
  | pad1 _ _ _ _ hb _ => exact hb
  | group _ _ _ _ _ _ hb _ _ _ => exact hb

theorem wf_third (a b c : Char) (rest : List Char) (h : WellFormed (a :: b :: c :: rest)) :
    c ∈ encodeStd ∨ c = '=' := by
  cases h with
  | pad2 _ _ _ _ => exact Or.inr rfl
  | pad1 _ _ _ _ _ hc => exact Or.inl hc
  | group _ _ _ _ _ _ _ hc _ _ => exact Or.inl hc

theorem wf_fourth (a b c d : Char) (rest : List Char)
    (h : WellFormed (a :: b :: c :: d :: rest)) : d ∈ encodeStd ∨ d = '=' := by
  cases h with
  | pad2 _ _ _ _ => exact Or.inr rfl
  | pad1 _ _ _ _ _ _ => exact Or.inr rfl
  | group _ _ _ _ _ _ _ _ hd _ => exact Or.inl hd

/-- A character that is neither of the alphabet nor the padding cannot stand among the
first four of a well formed text. -/
theorem wf_foreign (pre : List Char) (c : Char) (rest : List Char) (hlen : pre.length ≤ 3)
    (hc : c ∉ encodeStd) (hp : c ≠ '=') : ¬ WellFormed (pre ++ c :: rest) := by
  intro h
  match pre, hlen with
  | [], _ => exact hc (wf_first c rest h)
  | [a], _ => exact hc (wf_second a c rest h)
  | [a, b], _ =>
    rcases wf_third a b c rest h with h3 | h3
    · exact hc h3
    · exact hp h3
  | [a, b, d], _ =>
    rcases wf_fourth a b d c rest h with h4 | h4
    · exact hc h4
    · exact hp h4

/-- After a first `=`, the decoder asks for a second one and then for the end, line ends
skipped: that is, without its line ends the rest is a single `=`. -/
theorem second_pad_iff (s : List Char) :
    (∃ rest2, s.dropWhile isNewline = '=' :: rest2 ∧ rest2.dropWhile isNewline = []) ↔
      s.filter (fun c => !isNewline c) = ['='] := by
  rw [← filter_dropWhile_newline s]
  cases hd : s.dropWhile isNewline with
  | nil => simp
  | cons c rest2 =>
    have hc := dropWhile_newline_head s c rest2 hd
    simp only [List.cons.injEq, List.filter, hc, Bool.not_false, exists_eq_right',
      dropWhile_newline_nil]
    constructor
    · rintro ⟨r, ⟨rfl, rfl⟩, hr⟩
      exact ⟨rfl, hr⟩
    · rintro ⟨rfl, hr⟩
      exact ⟨rest2, ⟨rfl, rfl⟩, hr⟩

theorem decodePadding_ok_iff (dbuf : List Nat) (pre s : List Char)
    (hlen : pre.length = dbuf.length) (h3 : dbuf.length ≤ 3) (hpre : ∀ c ∈ pre, c ∈ encodeStd) :
    (decodePadding dbuf s).2 = none ↔
      WellFormed (pre ++ '=' :: s.filter (fun c => !isNewline c)) := by
  match pre, hlen, hpre with
  | [], hlen, _ =>
    have hk : dbuf.length < 2 := by simp at hlen; omega
    simp only [decodePadding, hk, if_true, List.nil_append]
    constructor
    · intro h; cases h
    · intro h; exact absurd (wf_first _ _ h) pad_not_mem
  | [a], hlen, _ =>
    have hk : dbuf.length < 2 := by simp at hlen; omega
    simp only [decodePadding, hk, if_true, List.singleton_append]
    constructor
    · intro h; cases h
    · intro h; exact absurd (wf_second _ _ _ h) pad_not_mem
  | [a, b], hlen, hpre =>
    have hk : ¬ dbuf.length < 2 := by simp at hlen; omega
    have hk2 : dbuf.length = 2 := by simp at hlen; omega
    have ha : a ∈ encodeStd := hpre a (by simp)
    have hb : b ∈ encodeStd := hpre b (by simp)
    have hwf := wf_pad2 a b (s.filter (fun c => !isNewline c)) ha hb
    have hsec := second_pad_iff s
    simp only [decodePadding, hk, hk2, if_true, if_false, List.cons_append, List.nil_append, hwf,
      ← hsec]
    cases hd : s.dropWhile isNewline with
    | nil => simp
    | cons c rest2 =>
      by_cases hc : c = '='
      · subst hc
        simp
        by_cases he : ∀ x ∈ rest2, isNewline x = true
        · rw [if_pos he]
          exact ⟨fun _ => he, fun _ => rfl⟩
        · rw [if_neg he]
          exact ⟨fun h => absurd h (by simp), fun h => absurd h he⟩
      · have hc2 : ¬ '=' = c := fun h => hc h.symm
        simp [hc, hc2]
  | [a, b, c], hlen, hpre =>
    have hk : ¬ dbuf.length < 2 := by simp at hlen; omega
    have hk2 : ¬ dbuf.length = 2 := by simp at hlen; omega
    have ha : a ∈ encodeStd := hpre a (by simp)
    have hb : b ∈ encodeStd := hpre b (by simp)
    have hc : c ∈ encodeStd := hpre c (by simp)
    have hwf := wf_pad3 a b c (s.filter (fun c => !isNewline c)) ha hb hc
    simp only [decodePadding, hk, hk2, if_false, List.cons_append, List.nil_append, hwf,
      ← dropWhile_newline_nil]
    simp
    by_cases he : ∀ x ∈ s, isNewline x = true
    · rw [if_pos he]
      exact ⟨fun _ => he, fun _ => rfl⟩
    · rw [if_neg he]
      exact ⟨fun h => absurd h (by simp), fun h => absurd h he⟩
  | _ :: _ :: _ :: _ :: _, hlen, _ =>
    simp at hlen
    omega

/-- The decoder accepts a text, with `dbuf` values of the group being read in hand, exactly
when the characters of that group and the rest of the text, without its line ends, are
well formed. -/
theorem decodeList_ok_iff : ∀ (s : List Char) (dbuf : List Nat) (pre : List Char),
    pre.length = dbuf.length → dbuf.length ≤ 3 → (∀ c ∈ pre, c ∈ encodeStd) →
    ((decodeList s dbuf).2 = none ↔ WellFormed (pre ++ s.filter (fun c => !isNewline c)))
  | [], dbuf, pre, hlen, h3, hpre => by
    have hwf := wellFormed_nil_iff pre hpre (by omega)
    simp only [decodeList, List.filter_nil, List.append_nil, hwf]
    cases dbuf with
    | nil =>
      have : pre = [] := List.length_eq_zero.mp (by simpa using hlen)
      simp [this]
    | cons v dbuf =>
      have : pre ≠ [] := by
        intro h
        rw [h] at hlen
        simp at hlen
      simp [this]
  | c :: s, dbuf, pre, hlen, h3, hpre => by
    cases hm : decodeMap c with
    | some v =>
      have hc : c ∈ encodeStd := (decodeMap_isSome_iff c).mp ⟨v, hm⟩
      have hnl : isNewline c = false := by
        cases hn : isNewline c with
        | false => rfl
        | true => exact absurd hc (newline_not_mem c hn)
      by_cases hk : dbuf.length = 3
      · have ih := decodeList_ok_iff s [] [] rfl (by simp) (by simp)
        match pre, hlen, hpre with
        | [a, b, d], _, hpre =>
          have hwf := wf_four a b d c (s.filter (fun c => !isNewline c)) (hpre a (by simp))
            (hpre b (by simp)) (hpre d (by simp)) hc
          simp only [decodeList, hm, hk, if_true, List.filter, hnl, Bool.not_false,
            List.cons_append, List.nil_append, hwf]
          simpa using ih
        | [], hlen, _ => simp [hk] at hlen
        | [_], hlen, _ => simp [hk] at hlen
        | [_, _], hlen, _ => simp [hk] at hlen
        | _ :: _ :: _ :: _ :: _, hlen, _ => simp [hk] at hlen
      · have ih := decodeList_ok_iff s (dbuf ++ [v]) (pre ++ [c]) (by simp [hlen])
          (by simp; omega) (by
            intro x hx
            rcases List.mem_append.mp hx with h | h
            · exact hpre x h
            · simp at h; rw [h]; exact hc)
        simp only [decodeList, hm, hk, if_false, List.filter, hnl, Bool.not_false]
        simpa using ih
    | none =>
      have hc : c ∉ encodeStd := (decodeMap_none_iff c).mp hm
      by_cases hnl : isNewline c = true
      · have ih := decodeList_ok_iff s dbuf pre hlen h3 hpre
        simp only [decodeList, hm, hnl, if_true, List.filter, Bool.not_true]
        exact ih
      · have hnl2 : isNewline c = false := by simpa using hnl
        by_cases hp : c = '='
        · subst hp
          have hpad := decodePadding_ok_iff dbuf pre s hlen h3 hpre
          simp only [decodeList, hm, hnl2, List.filter, Bool.not_false]
          simpa using hpad
        · have hwf := wf_foreign pre c (s.filter (fun c => !isNewline c)) (by omega) hc hp
          simp only [decodeList, hm, hnl2, List.filter, Bool.not_false]
          simp [hp, hwf]

/-- `StdEncoding.DecodeString` reports no error exactly on the valid texts. -/
theorem DecodeString_ok_iff (s : String) : (DecodeString s).2 = none ↔ Valid s := by
  simpa [DecodeString, Valid] using decodeList_ok_iff s.data [] [] rfl (by simp) (by simp)

end base64

/-! ## Lemmas on `unattachable` and the loop of `handler` -/

theorem mk_append (a b : List Char) : String.mk a ++ String.mk b = String.mk (a ++ b) := rfl

theorem headerLines_attachment (env : Env) (fileheader : multipart.FileHeader) :
    multipart.headerLines (attachment_header env fileheader) =
      attachment_header_lines env fileheader.Filename := by
  have h1 : multipart.leList "Content-Transfer-Encoding".data "Content-Disposition".data = false := by
    decide
  have h2 : multipart.leList "Content-Type".data "Content-Disposition".data = false := by decide
  have h3 : multipart.leList "Content-Type".data "Content-Transfer-Encoding".data = false := by
    decide
  have h4 : multipart.leList "Content-Disposition".data "Content-Transfer-Encoding".data = true := by
    decide
  simp only [multipart.headerLines, multipart.sortedEntries, attachment_header,
    attachment_header_lines, List.insertionSort, List.orderedInsert, h1, h2, h3, h4, String.join,
    List.map, List.foldl, String.append_assoc, String.empty_append, String.append_empty,
    if_true, if_false, Bool.false_eq_true]

theorem CreatePart_healthy (mw : multipart.Writer) (header : textproto.MIMEHeader)
    (h : mw.healthy) :
    mw.CreatePart header =
      ({ w := mw.w ++ (delimiter mw ++ multipart.headerLines header ++ "\r\n"),
         boundary := mw.boundary, lastpart := some { closed := false, we := none } }, none) := by
  unfold multipart.Writer.healthy at h
  cases hl : mw.lastpart with
  | none => simp [multipart.Writer.CreatePart, multipart.Writer.bufferWrite, hl, delimiter]
  | some p =>
    have := h p hl
    simp [multipart.Writer.CreatePart, multipart.Writer.bufferWrite, hl, delimiter, this]

theorem unattachable_open_error (env : Env) (mw : multipart.Writer)
    (fileheader : multipart.FileHeader) (e : Error) (h : fileheader.Open = Except.error e) :
    unattachable env mw fileheader = (mw, some e) := by
  simp [unattachable, h]

theorem unattachable_read_error (env : Env) (mw : multipart.Writer)
    (fileheader : multipart.FileHeader) (f : multipart.File) (e : Error)
    (h : fileheader.Open = Except.ok f) (he : f.err = some e) (hm : mw.healthy) :
    (unattachable env mw fileheader).2 = some e := by
  simp only [unattachable, h, CreatePart_healthy mw _ hm]
  by_cases hn : f.data.length / 3 * 3 = 0 <;>
  simp [io.Copy, base64.Encoder.Write, base64.NewEncoder, multipart.Writer.partWrite,
    multipart.Writer.bufferWrite, hn, he]

theorem copy_close (mw : multipart.Writer) (f : multipart.File)
    (hp : mw.lastpart = some { closed := false, we := none }) (he : f.err = none) :
    (io.Copy base64.NewEncoder mw f).2.2 = none ∧
    base64.Encoder.Close (io.Copy base64.NewEncoder mw f).1 (io.Copy base64.NewEncoder mw f).2.1 =
      ({ mw with w := mw.w ++ base64.EncodeToString f.data }, none) := by
  have key := base64.encodeList_take_drop (f.data.length / 3) f.data
  have hmul : f.data.length / 3 * 3 = 3 * (f.data.length / 3) := Nat.mul_comm _ _
  rcases Nat.eq_zero_or_pos (f.data.length / 3) with hk | hk
  · have hn : f.data.length / 3 * 3 = 0 := by omega
    have hcopy : io.Copy base64.NewEncoder mw f = ({ buf := f.data, err := none }, mw, none) := by
      simp [io.Copy, base64.Encoder.Write, base64.NewEncoder, hn, he]
    rw [hcopy]
    refine ⟨rfl, ?_⟩
    by_cases hd : f.data = []
    · simp [base64.Encoder.Close, hd, base64.EncodeToString, base64.encodeList]
    · simp [base64.Encoder.Close, hd, base64.EncodeToString, multipart.Writer.partWrite,
        multipart.Writer.bufferWrite, hp]
  · have hn : ¬ f.data.length / 3 * 3 = 0 := by omega
    have hcopy : io.Copy base64.NewEncoder mw f =
        ({ buf := f.data.drop (3 * (f.data.length / 3)), err := none },
         { mw with w := mw.w ++ String.mk (base64.encodeList (f.data.take (3 * (f.data.length / 3)))) },
         none) := by
      simp only [io.Copy, base64.Encoder.Write, base64.NewEncoder, List.nil_append]
      have hk0 : ¬ f.data.length / 3 = 0 := by omega
      simp [hk0, he, hmul, multipart.Writer.partWrite, multipart.Writer.bufferWrite, hp]
    rw [hcopy]
    refine ⟨rfl, ?_⟩
    by_cases hd : f.data.drop (3 * (f.data.length / 3)) = []
    · rw [hd] at key
      simp only [base64.encodeList, List.append_nil] at key
      simp [base64.Encoder.Close, hd, base64.EncodeToString, key]
    · simp [base64.Encoder.Close, hd, base64.EncodeToString, multipart.Writer.partWrite,
        multipart.Writer.bufferWrite, hp, String.append_assoc, mk_append, key]

theorem unattachable_ok (env : Env) (mw : multipart.Writer)
    (fileheader : multipart.FileHeader) (f : multipart.File)
    (h : fileheader.Open = Except.ok f) (he : f.err = none) (hm : mw.healthy) :
    unattachable env mw fileheader =
      ({ w := mw.w ++ (delimiter mw ++ attachment_header_lines env fileheader.Filename ++ "\r\n")
              ++ base64.EncodeToString f.data,
         boundary := mw.boundary, lastpart := some { closed := false, we := none } }, none) := by
  have hc := copy_close
    { w := mw.w ++ (delimiter mw ++ attachment_header_lines env fileheader.Filename ++ "\r\n"),
      boundary := mw.boundary, lastpart := some { closed := false, we := none } } f rfl he
  simp only [unattachable, h, CreatePart_healthy mw _ hm, headerLines_attachment]
  simp [hc.1, hc.2]

theorem healthy_of_open (mw : multipart.Writer) (h : mw.lastpart = some open_part) :
    mw.healthy := by
  intro p hp
  rw [h] at hp
  cases hp
  rfl

theorem delimiter_of_open (mw : multipart.Writer) (h : mw.lastpart = some open_part) :
    delimiter mw = "\r\n--" ++ mw.boundary ++ "\r\n" := by
  simp [delimiter, h]

theorem attach_all_error (env : Env) (e : Error) :
    ∀ (files : List multipart.FileHeader) (mw : multipart.Writer),
      attach_all env files (mw, some e) = (mw, some e)
  | [], _ => rfl
  | fileheader :: rest, mw => by
    simp [attach_all, attach_all_error env e rest mw]

/-- When every file part that has a name reads clean, the loop appends their parts, in
order, and leaves no error. -/
theorem attach_all_clean (env : Env) :
    ∀ (files : List multipart.FileHeader) (mw : multipart.Writer),
      mw.lastpart = some open_part →
      (∀ fileheader ∈ files, fileheader.Filename ≠ "" → reads_clean fileheader) →
      attach_all env files (mw, none) =
        ({ w := mw.w ++ render_more mw.boundary ((named files).map (attachment_part env)),
           boundary := mw.boundary, lastpart := some open_part }, none)
  | [], mw, hp, _ => by
    cases mw
    simp only at hp
    simp [attach_all, named, render_more, hp]
  | fileheader :: rest, mw, hp, hc => by
    by_cases hn : fileheader.Filename = ""
    · have ih := attach_all_clean env rest mw hp (fun fh hfh => hc fh (List.mem_cons_of_mem _ hfh))
      simp [attach_all, named, hn, ih]
    · obtain ⟨f, hf, he⟩ := hc fileheader (List.mem_cons_self _ _) hn
      have hu := unattachable_ok env mw fileheader f hf he (healthy_of_open mw hp)
      have ih := attach_all_clean env rest
        { w := mw.w ++ (delimiter mw ++ attachment_header_lines env fileheader.Filename ++ "\r\n")
              ++ base64.EncodeToString f.data,
          boundary := mw.boundary, lastpart := some { closed := false, we := none } } rfl
        (fun fh hfh => hc fh (List.mem_cons_of_mem _ hfh))
      rw [attach_all, if_pos ⟨rfl, hn⟩, hu, ih]
      have hnamed : named (fileheader :: rest) = fileheader :: named rest := by
        simp [named, hn]
      simp only [hnamed, List.map, render_more, attachment_part, file_data, hf, MimePart.render,
        delimiter_of_open mw hp, String.append_assoc]

/-- When a file part that has a name does not read clean, the loop leaves an error. -/
theorem attach_all_dirty (env : Env) :
    ∀ (files : List multipart.FileHeader) (mw : multipart.Writer),
      mw.lastpart = some open_part →
      (∃ fileheader ∈ files, fileheader.Filename ≠ "" ∧ ¬ reads_clean fileheader) →
      (attach_all env files (mw, none)).2 ≠ none
  | [], _, _, h => by
    obtain ⟨fh, hfh, _⟩ := h
    cases hfh
  | fileheader :: rest, mw, hp, h => by
    by_cases hn : fileheader.Filename = ""
    · have h2 : ∃ fh ∈ rest, fh.Filename ≠ "" ∧ ¬ reads_clean fh := by
        obtain ⟨fh, hfh, hne, hd⟩ := h
        rcases List.mem_cons.mp hfh with rfl | hmem
        · exact absurd hn hne
        · exact ⟨fh, hmem, hne, hd⟩
      have ih := attach_all_dirty env rest mw hp h2
      simpa [attach_all, hn] using ih
    · by_cases hc : reads_clean fileheader
      · obtain ⟨f, hf, he⟩ := hc
        have hu := unattachable_ok env mw fileheader f hf he (healthy_of_open mw hp)
        have h2 : ∃ fh ∈ rest, fh.Filename ≠ "" ∧ ¬ reads_clean fh := by
          obtain ⟨fh, hfh, hne, hd⟩ := h
          rcases List.mem_cons.mp hfh with rfl | hmem
          · exact absurd ⟨f, hf, he⟩ hd
          · exact ⟨fh, hmem, hne, hd⟩
        have ih := attach_all_dirty env rest (unattachable env mw fileheader).1
          (by rw [hu]; rfl) h2
        rw [attach_all, if_pos ⟨rfl, hn⟩]
        have hpair : unattachable env mw fileheader = ((unattachable env mw fileheader).1, none) := by
          rw [hu]
        rw [hpair]
        exact ih
      · have hu : ∃ e, (unattachable env mw fileheader).2 = some e := by
          cases hf : fileheader.Open with
          | error e => exact ⟨e, by rw [unattachable_open_error env mw fileheader e hf]⟩
          | ok f =>
            cases he : f.err with
            | none => exact absurd ⟨f, hf, he⟩ hc
            | some e =>
              exact ⟨e, unattachable_read_error env mw fileheader f e hf he (healthy_of_open mw hp)⟩
        obtain ⟨e, he⟩ := hu
        rw [attach_all, if_pos ⟨rfl, hn⟩]
        have hpair : unattachable env mw fileheader = ((unattachable env mw fileheader).1, some e) := by
          rw [← he]
        rw [hpair, attach_all_error]
        simp

/-! ## Lemmas on `form_fields` and `handler` -/

/-- The three shapes of the result of `form_fields`. -/
theorem form_fields_cases (env : Env) (req : APIGatewayProxyRequest) :
    (∃ e, form_fields env req = (none, some e)) ∨ form_fields env req = (none, none) ∨
    (∃ form, form_fields env req = (some form, none)) := by
  unfold form_fields
  cases hd : (base64.DecodeString req.Body).2 with
  | some e => exact Or.inl ⟨e, by simp [hd]⟩
  | none =>
    cases hp : (mime.ParseMediaType (req.Headers "content-type")).2.2 with
    | some e => exact Or.inl ⟨e, by simp [hd, hp]⟩
    | none =>
      by_cases hm : strings.HasPrefix (mime.ParseMediaType (req.Headers "content-type")).1
          "multipart/" = true
      · cases hr : env.ReadForm (base64.DecodeString req.Body).1
            (mime.index ((mime.ParseMediaType (req.Headers "content-type")).2.1.getD []) "boundary") with
        | error e => exact Or.inl ⟨e, by simp [hd, hp, hm, hr]⟩
        | ok form => exact Or.inr (Or.inr ⟨form, by simp [hd, hp, hm, hr]⟩)
      · exact Or.inr (Or.inl (by simp [hd, hp, hm]))

/-- The defect of `form_fields`: when the body decodes and the content type parses but is
not multipart, the error returned is the nil error of the parse. -/
theorem form_fields_not_multipart (env : Env) (req : APIGatewayProxyRequest)
    (hd : (base64.DecodeString req.Body).2 = none)
    (hp : (mime.ParseMediaType (req.Headers "content-type")).2.2 = none)
    (hm : strings.HasPrefix (mime.ParseMediaType (req.Headers "content-type")).1 "multipart/" = false) :
    form_fields env req = (none, none) := by
  simp [form_fields, hd, hp, hm]

theorem handler_of_error (env : Env) (req : APIGatewayProxyRequest) (e : Error)
    (h : (form_fields env req).2 = some e) :
    handler env req = { result := Run.ret (confirmation failure_page), sent := [] } := by
  simp [handler, h]

theorem handler_of_nil (env : Env) (req : APIGatewayProxyRequest)
    (h : form_fields env req = (none, none)) :
    handler env req = { result := Run.panic, sent := [] } := by
  simp [handler, h, email_body, multipart.NewWriter, multipart.Writer.CreatePart,
    multipart.Writer.bufferWrite]

theorem handler_of_spam (env : Env) (req : APIGatewayProxyRequest) (form : multipart.Form)
    (h : form_fields env req = (some form, none))
    (hs : strings.Join (form.Value "office") "\n" ≠ "") :
    handler env req = { result := Run.ret (confirmation failure_page), sent := [] } := by
  simp [handler, h, email_body_spam env form "" hs, attach_all_error]

theorem handler_of_dirty (env : Env) (req : APIGatewayProxyRequest) (form : multipart.Form)
    (h : form_fields env req = (some form, none))
    (hs : strings.Join (form.Value "office") "\n" = "")
    (hf : ∃ fileheader ∈ form.File "attachment",
      fileheader.Filename ≠ "" ∧ ¬ reads_clean fileheader) :
    handler env req = { result := Run.ret (confirmation failure_page), sent := [] } := by
  have hd := attach_all_dirty env (form.File "attachment")
    { w := "" ++ ("--" ++ env.randomBoundary ++ "\r\n" ++ text_header_lines ++ "\r\n")
              ++ text_content form,
      boundary := env.randomBoundary,
      lastpart := some { closed := false, we := none } } rfl hf
  simp only [handler, h, email_body_ok env form "" hs]
  cases hatt : attach_all env (form.File "attachment")
    ({ w := "" ++ ("--" ++ env.randomBoundary ++ "\r\n" ++ text_header_lines ++ "\r\n")
              ++ text_content form,
       boundary := env.randomBoundary,
       lastpart := some { closed := false, we := none } }, none) with
  | mk mw1 err =>
    rw [hatt] at hd
    cases err with
    | none => exact absurd rfl hd
    | some e => simp

theorem handler_of_clean (env : Env) (req : APIGatewayProxyRequest) (form : multipart.Form)
    (h : form_fields env req = (some form, none))
    (hs : strings.Join (form.Value "office") "\n" = "")
    (hf : ∀ fileheader ∈ form.File "attachment", fileheader.Filename ≠ "" → reads_clean fileheader) :
    handler env req =
      { result :=
          if unsendable env (header_of env.randomBoundary) (built_body env form) = none
          then Run.ret (confirmation success_page) else Run.ret (confirmation failure_page),
        sent := [(header_of env.randomBoundary, built_body env form)] } := by
  have hc := attach_all_clean env (form.File "attachment")
    { w := "" ++ ("--" ++ env.randomBoundary ++ "\r\n" ++ text_header_lines ++ "\r\n")
              ++ text_content form,
      boundary := env.randomBoundary,
      lastpart := some { closed := false, we := none } } rfl hf
  have hb : "" ++ ("--" ++ env.randomBoundary ++ "\r\n" ++ text_header_lines ++ "\r\n")
      ++ text_content form
      ++ render_more env.randomBoundary ((named (form.File "attachment")).map (attachment_part env))
      ++ ("\r\n--" ++ env.randomBoundary ++ "--\r\n") = built_body env form := by
    simp only [built_body, render_body, render_parts, text_part, MimePart.render,
      String.append_assoc, String.empty_append]
  simp only [handler, h, email_body_ok env form "" hs, hc]
  simp only [multipart.Writer.Close, open_part, multipart.Writer.bufferWrite,
    multipart.Writer.Boundary, hb]
  by_cases hu : unsendable env (header_of env.randomBoundary) (built_body env form) = none
  · simp [hu]
  · simp [hu]

/-! ## Lemmas on `strings.Split` and the extension of a file name -/

namespace strings

theorem containsList_singleton (c : Char) : ∀ s : List Char, containsList s [c] = true ↔ c ∈ s
  | [] => by simp [containsList]
  | d :: s => by
    have ih := containsList_singleton c s
    simp only [containsList, startsWith, Bool.and_true, Bool.or_eq_true, beq_iff_eq, ih,
      List.mem_cons]
    constructor
    · rintro (h | h)
      · exact Or.inl h.symm
      · exact Or.inr h
    · rintro (h | h)
      · exact Or.inl h.symm
      · exact Or.inr h

theorem splitAux_ne_nil (sep : Char) : ∀ (s cur : List Char), splitAux sep s cur ≠ []
  | [], cur => by simp [splitAux]
  | c :: s, cur => by
    by_cases h : c = sep
    · simp [splitAux, h]
    · simpa [splitAux, h] using splitAux_ne_nil sep s (c :: cur)

theorem getLastD_cons_of_ne_nil {α : Type} (a d : α) :
    ∀ l : List α, l ≠ [] → (a :: l).getLastD d = l.getLastD d
  | [], h => absurd rfl h
  | b :: l, _ => by simp [List.getLastD]

theorem takeWhile_append_stop {α : Type} (p : α → Bool) (x : α) (hx : p x = false) (b : List α) :
    ∀ a : List α, (a ++ x :: b).takeWhile p = a.takeWhile p
  | [] => by simp [List.takeWhile, hx]
  | y :: a => by
    have ih := takeWhile_append_stop p x hx b a
    by_cases hy : p y = true
    · simp [List.takeWhile, hy, ih]
    · simp [List.takeWhile, hy]

/-- The last field of a split is the text after the last separator. -/
theorem getLastD_splitAux (sep : Char) :
    ∀ (s cur : List Char), sep ∉ cur →
      (splitAux sep s cur).getLastD "" =
        String.mk ((cur.reverse ++ s).reverse.takeWhile (· ≠ sep)).reverse
  | [], cur, hc => by
    have : cur.takeWhile (fun x => !decide (x = sep)) = cur := by
      rw [List.takeWhile_eq_self_iff]
      intro x hx
      have : x ≠ sep := fun h => hc (h ▸ hx)
      simpa using this
    simp [splitAux, List.getLastD, this]
  | c :: s, cur, hc => by
    by_cases h : c = sep
    · subst h
      have ih := getLastD_splitAux c s [] (by simp)
      have hstop := takeWhile_append_stop (fun x => decide (x ≠ c)) c (by simp) cur s.reverse
      simp only [splitAux, if_true]
      rw [getLastD_cons_of_ne_nil _ _ _ (splitAux_ne_nil c s []), ih]
      simp only [List.reverse_nil, List.nil_append, List.reverse_append, List.reverse_cons,
        List.reverse_reverse, List.append_assoc, List.singleton_append, hstop]
    · have ih := getLastD_splitAux sep s (c :: cur) (by
        intro hm
        rcases List.mem_cons.mp hm with rfl | hm
        · exact h rfl
        · exact hc hm)
      simp only [splitAux, h, if_false]
      rw [ih]
      simp

theorem getLastD_Split (s : String) (sep : Char) :
    (Split s sep).getLastD "" = String.mk (s.data.reverse.takeWhile (· ≠ sep)).reverse := by
  simpa [Split] using getLastD_splitAux sep s.data [] (by simp)

end strings

/-- What `unattachable` computes as the content type is what the claims expect. -/
theorem mimetype_of_eq (env : Env) (filename : String) :
    mimetype_of env filename = declared_type env filename := by
  have hsplit := strings.getLastD_Split filename '.'
  have hc := strings.containsList_singleton '.' filename.data
  unfold mimetype_of declared_type after_last_dot
  by_cases hdot : '.' ∈ filename.data
  · have hcont : strings.Contains filename "." = true := hc.mpr hdot
    simp only [hcont, if_true, hsplit, hdot, true_and]
    by_cases hreg : env.TypeByExtension ("." ++
        String.mk (filename.data.reverse.takeWhile (· ≠ '.')).reverse) = ""
    · simp [hreg]
    · simp [hreg]
  · have hcont : strings.Contains filename "." = false := by
      cases hb : strings.Contains filename "." with
      | false => rfl
      | true => exact absurd (hc.mp hb) hdot
    simp [hcont, hdot]

theorem unattachable_none_inv (env : Env) (mw mw1 : multipart.Writer)
    (fileheader : multipart.FileHeader) (h : unattachable env mw fileheader = (mw1, none)) :
    mw.healthy ∧ ∃ f, fileheader.Open = Except.ok f ∧ f.err = none := by
  cases hf : fileheader.Open with
  | error e =>
    rw [unattachable_open_error env mw fileheader e hf] at h
    cases h
  | ok f =>
    have hm : mw.healthy := by
      intro p hp
      cases hwe : p.we with
      | none => rfl
      | some e =>
        simp [unattachable, hf, multipart.Writer.CreatePart, hp, hwe] at h
    refine ⟨hm, f, rfl, ?_⟩
    cases he : f.err with
    | none => rfl
    | some e =>
      have := unattachable_read_error env mw fileheader f e hf he hm
      rw [h] at this
      cases this

theorem success_ne_failure : Run.ret (confirmation success_page) ≠ Run.ret (confirmation failure_page) := by
  decide

/-- The steps of a build without an error, with what each leaves: the text part, the loop
over the file parts, and the closing of the writer. -/
theorem build_clean (env : Env) (form : multipart.Form)
    (hs : strings.Join (form.Value "office") "\n" = "")
    (hf : ∀ fileheader ∈ form.File "attachment", fileheader.Filename ≠ "" → reads_clean fileheader) :
    ∃ mw mw1, email_body env (some form) "" = Run.ret (mw, none) ∧
      attach_all env (form.File "attachment") (mw, none) = (mw1, none) ∧
      mw1.Close = ({ w := built_body env form, boundary := env.randomBoundary, lastpart := none },
        none) := by
  have hc := attach_all_clean env (form.File "attachment")
    { w := "" ++ ("--" ++ env.randomBoundary ++ "\r\n" ++ text_header_lines ++ "\r\n")
              ++ text_content form,
      boundary := env.randomBoundary,
      lastpart := some { closed := false, we := none } } rfl hf
  refine ⟨_, _, email_body_ok env form "" hs, hc, ?_⟩
  simp only [multipart.Writer.Close, open_part, multipart.Writer.bufferWrite, built_body,
    render_body, render_parts, text_part, MimePart.render, String.append_assoc,
    String.empty_append]

/-- The order of the steps in a run of `handler`: `unsendable` is called at most once; it is
called only after `form_fields` returned a form, the honeypot was empty, `email_body` and
the loop over the file parts left no error (every file part with a name opened and was
read to its end), and the writer was closed without an error, and then with the header
and the closed buffer; the redirect to the success page is returned only after one call
that reported no error; and the redirect to the failure page is returned when
`form_fields` returned an error, when the honeypot was not empty, when a file part with a
name failed to open or to be read, and when the call reported an error. -/
theorem handler_send_discipline (env : Env) (req : APIGatewayProxyRequest) :
    (handler env req).sent.length ≤ 1 ∧
    ((handler env req).sent ≠ [] →
      ∃ form mw mw1 mw2, form_fields env req = (some form, none) ∧
        strings.Join (form.Value "office") "\n" = "" ∧
        email_body env (some form) "" = Run.ret (mw, none) ∧
        attach_all env (form.File "attachment") (mw, none) = (mw1, none) ∧
        (∀ fileheader ∈ form.File "attachment", fileheader.Filename ≠ "" →
          reads_clean fileheader) ∧
        mw1.Close = (mw2, none) ∧
        (handler env req).sent = [(header_of mw2.Boundary, mw2.w)]) ∧
    ((handler env req).result = Run.ret (confirmation success_page) →
      ∃ m, (handler env req).sent = [m] ∧ unsendable env m.1 m.2 = none) ∧
    ((form_fields env req).2 ≠ none →
      (handler env req).result = Run.ret (confirmation failure_page)) ∧
    (∀ form, form_fields env req = (some form, none) →
      (strings.Join (form.Value "office") "\n" ≠ "" ∨
        (∃ fileheader ∈ form.File "attachment",
          fileheader.Filename ≠ "" ∧ ¬ reads_clean fileheader) ∨
        (∃ m ∈ (handler env req).sent, unsendable env m.1 m.2 ≠ none)) →
      (handler env req).result = Run.ret (confirmation failure_page)) := by
  rcases form_fields_cases env req with ⟨e, he⟩ | hnil | ⟨form, hform⟩
  · have h2 : (form_fields env req).2 = some e := by rw [he]
    have hh := handler_of_error env req e h2
    rw [hh]
    refine ⟨by simp, fun h => absurd rfl h, fun h => absurd h.symm success_ne_failure,
      fun _ => rfl, fun _ _ _ => rfl⟩
  · have hh := handler_of_nil env req hnil
    rw [hh, hnil]
    refine ⟨by simp, fun h => absurd rfl h, fun h => ?_, fun h => absurd rfl h, ?_⟩
    · exact absurd h (by decide)
    · intro form hf
      cases hf
  · by_cases hs : strings.Join (form.Value "office") "\n" = ""
    · by_cases hf : ∀ fileheader ∈ form.File "attachment",
          fileheader.Filename ≠ "" → reads_clean fileheader
      · have hh := handler_of_clean env req form hform hs hf
        obtain ⟨mw, mw1, h1, h2, h3⟩ := build_clean env form hs hf
        rw [hh, hform]
        refine ⟨by simp, fun _ => ⟨form, mw, mw1, _, rfl, hs, h1, h2, hf, h3, rfl⟩, ?_,
          fun h => absurd rfl h, ?_⟩
        · intro hr
          refine ⟨_, rfl, ?_⟩
          by_cases hu : unsendable env (header_of env.randomBoundary) (built_body env form) = none
          · exact hu
          · simp only [hu, if_false] at hr
            exact absurd hr.symm success_ne_failure
        · intro form2 hf2 hor
          cases hf2
          rcases hor with h | ⟨fh, hfh, hne, hd⟩ | ⟨m, hm, hu⟩
          · exact absurd hs h
          · exact absurd (hf fh hfh hne) hd
          · simp only [List.mem_singleton] at hm
            subst hm
            simp only at hu
            simp [hu]
      · have hf2 : ∃ fileheader ∈ form.File "attachment",
            fileheader.Filename ≠ "" ∧ ¬ reads_clean fileheader := by
          by_contra hcon
          apply hf
          intro fh hfh hne
          by_contra hd
          exact hcon ⟨fh, hfh, hne, hd⟩
        have hh := handler_of_dirty env req form hform hs hf2
        rw [hh, hform]
        refine ⟨by simp, fun h => absurd rfl h, fun h => absurd h.symm success_ne_failure,
          fun _ => rfl, fun _ _ _ => rfl⟩
    · have hh := handler_of_spam env req form hform hs
      rw [hh, hform]
      refine ⟨by simp, fun h => absurd rfl h, fun h => absurd h.symm success_ne_failure,
        fun _ => rfl, fun _ _ _ => rfl⟩

/-- A run of `handler` ends in one of three ways: with a panic, exactly when `form_fields`
returned the nil form with the nil error; with the redirect to the failure page; or with
the redirect to the success page. The redirect has the status 301 and one header. -/
theorem handler_response_or_panic (env : Env) (req : APIGatewayProxyRequest) :
    (form_fields env req = (none, none) ∧
      handler env req = { result := Run.panic, sent := [] }) ∨
    (form_fields env req ≠ (none, none) ∧
      ((handler env req).result =
          Run.ret ({ StatusCode := 301, Headers := [("Location", failure_page)] }, none) ∨
       (handler env req).result =
          Run.ret ({ StatusCode := 301, Headers := [("Location", success_page)] }, none))) := by
  rcases form_fields_cases env req with ⟨e, he⟩ | hnil | ⟨form, hform⟩
  · have h2 : (form_fields env req).2 = some e := by rw [he]
    rw [handler_of_error env req e h2, he]
    exact Or.inr ⟨by simp, Or.inl rfl⟩
  · exact Or.inl ⟨hnil, handler_of_nil env req hnil⟩
  · refine Or.inr ⟨by rw [hform]; simp, ?_⟩
    by_cases hs : strings.Join (form.Value "office") "\n" = ""
    · by_cases hf : ∀ fileheader ∈ form.File "attachment",
          fileheader.Filename ≠ "" → reads_clean fileheader
      · rw [handler_of_clean env req form hform hs hf]
        by_cases hu : unsendable env (header_of env.randomBoundary) (built_body env form) = none
        · simp only [hu, if_true]
          exact Or.inr rfl
        · simp only [hu, if_false]
          exact Or.inl rfl
      · have hf2 : ∃ fileheader ∈ form.File "attachment",
            fileheader.Filename ≠ "" ∧ ¬ reads_clean fileheader := by
          by_contra hcon
          apply hf
          intro fh hfh hne
          by_contra hd
          exact hcon ⟨fh, hfh, hne, hd⟩
        rw [handler_of_dirty env req form hform hs hf2]
        exact Or.inl rfl
    · rw [handler_of_spam env req form hform hs]
      exact Or.inl rfl

/-! ## The claims -/

/-- C1, evaluated at a request that declares `application/json` with an empty body (which
is valid base64): `form_fields` returns the nil form together with the nil error, not a
failure. The statement `return nil, err` after the test of the media type returns the
error of the parse, which is nil there. -/
theorem C1_form_fields_json_returns_nil_error (env : Env) :
    (base64.DecodeString json_request.Body).2 = none ∧
    mime.ParseMediaType (json_request.Headers "content-type") =
      ("application/json", some [], none) ∧
    strings.HasPrefix "application/json" "multipart/" = false ∧
    form_fields env json_request = (none, none) :=
  ⟨by decide, by decide, by decide, form_fields_not_multipart env json_request (by decide)
    (by decide) (by decide)⟩

/-- C2, evaluated at the same request: `handler` does not return a response; it stops with
a panic, when `email_body` reads the field `Value` through the nil form. -/
theorem C2_handler_json_panics (env : Env) :
    handler env json_request = { result := Run.panic, sent := [] } :=
  handler_of_nil env json_request
    (form_fields_not_multipart env json_request (by decide) (by decide) (by decide))

/-- C3: when the form was decoded and the values of the field office, joined with line
ends, are not empty, `handler` returns the redirect to the failure page and `unsendable`
is not called, whatever else the form holds. -/
theorem C3_honeypot_fails_without_send (env : Env) (req : APIGatewayProxyRequest)
    (form : multipart.Form) (h : form_fields env req = (some form, none))
    (hs : strings.Join (form.Value "office") "\n" ≠ "") :
    (handler env req).result = Run.ret (confirmation failure_page) ∧
    (handler env req).sent = [] := by
  rw [handler_of_spam env req form h hs]
  exact ⟨rfl, rfl⟩

/-- C3 at a form whose field office holds the text of a bot, with a name and a file. -/
theorem C3_honeypot_fails_without_send_witness :
    (handler (env_of (form_of ["bot"] ["Ann"] [] [] [file_of "a.pdf" [1, 2, 3]]) "XYZ")
      form_request).result = Run.ret (confirmation failure_page) ∧
    (handler (env_of (form_of ["bot"] ["Ann"] [] [] [file_of "a.pdf" [1, 2, 3]]) "XYZ")
      form_request).sent = [] :=
  C3_honeypot_fails_without_send
    (env_of (form_of ["bot"] ["Ann"] [] [] [file_of "a.pdf" [1, 2, 3]]) "XYZ") form_request
    (form_of ["bot"] ["Ann"] [] [] [file_of "a.pdf" [1, 2, 3]]) rfl (by decide)

/-- C4, evaluated at a form whose field name holds `=41`: the text part is declared
quoted-printable, but `email_body` writes the value as it is, so that a quoted-printable
reader turns `=41` into `A` and the text read back does not contain the value. -/
theorem C4_text_part_not_quoted_printable (env : Env) :
    ∃ mw, email_body env (some (form_of [] ["=41"] [] [] [])) "" = Run.ret (mw, none) ∧
      mw.w = "" ++ ("--" ++ env.randomBoundary ++ "\r\n" ++
          "Content-Transfer-Encoding: quoted-printable\r\nContent-Type: text/plain; charset=utf-8\r\n"
          ++ "\r\n") ++ "name:  =41\n\nemail: (withheld)\n\nmessage:\n\n(withheld)" ∧
      quotedprintable.decode "name:  =41\n\nemail: (withheld)\n\nmessage:\n\n(withheld)" =
        ("name:  A\n\nemail: (withheld)\n\nmessage:\n\n(withheld)", none) ∧
      strings.Contains "name:  A\n\nemail: (withheld)\n\nmessage:\n\n(withheld)" "=41" = false :=
  ⟨_, email_body_ok env (form_of [] ["=41"] [] [] []) "" (by decide), rfl, by decide, by decide⟩

/-- C5: when `unattachable` succeeds on a file part, what it has written to the message is
the delimiter line, the header lines of the part, among them
`Content-Transfer-Encoding: base64`, an empty line, and a content that
`StdEncoding.DecodeString` decodes, without an error, to the bytes of the file; and when
the text after the last dot of the file name is `pdf` (and the registry of the host has
the PDF type for it, as the built-in one has) the content type declared is
`application/pdf`. The file name may be any, also an empty one. -/
theorem C5_attachment_base64_round_trip (env : Env) (mw mw1 : multipart.Writer)
    (fileheader : multipart.FileHeader) (h : unattachable env mw fileheader = (mw1, none)) :
    ∃ f content, fileheader.Open = Except.ok f ∧
      mw1.w = mw.w ++ (delimiter mw ++
        ("Content-Disposition" ++ ": " ++ ("attachment; filename=\"" ++ fileheader.Filename ++ "\"")
            ++ "\r\n" ++
          ("Content-Transfer-Encoding" ++ ": " ++ "base64" ++ "\r\n") ++
          ("Content-Type" ++ ": " ++ mimetype_of env fileheader.Filename ++ "\r\n")) ++ "\r\n")
        ++ content ∧
      base64.DecodeString content = (f.data, none) ∧
      ('.' ∈ fileheader.Filename.data ∧ after_last_dot fileheader.Filename = "pdf" →
        env.TypeByExtension ".pdf" = "application/pdf" →
        mimetype_of env fileheader.Filename = "application/pdf") := by
  obtain ⟨hm, f, hf, he⟩ := unattachable_none_inv env mw mw1 fileheader h
  rw [unattachable_ok env mw fileheader f hf he hm] at h
  refine ⟨f, base64.EncodeToString f.data, hf, ?_, base64.DecodeString_EncodeToString f.data, ?_⟩
  · have := congrArg (fun r => r.1.w) h
    simp only at this
    rw [← this]
    rfl
  · rintro ⟨hdot, hext⟩ hreg
    rw [mimetype_of_eq, declared_type, hext]
    have : env.TypeByExtension ("." ++ "pdf") = "application/pdf" := hreg
    simp [hdot, this, hreg]

/-- C5 at a file `a.pdf` of four bytes, written after the text part. -/
theorem C5_attachment_base64_round_trip_witness :
    ∃ f content, (file_of "a.pdf" [1, 2, 3, 255]).Open = Except.ok f ∧
      (unattachable (env_of (form_of [] [] [] [] []) "XYZ")
          { w := "", boundary := "XYZ", lastpart := some open_part }
          (file_of "a.pdf" [1, 2, 3, 255])).1.w =
        "" ++ (delimiter { w := "", boundary := "XYZ", lastpart := some open_part } ++
        ("Content-Disposition" ++ ": " ++ ("attachment; filename=\"" ++ "a.pdf" ++ "\"")
            ++ "\r\n" ++
          ("Content-Transfer-Encoding" ++ ": " ++ "base64" ++ "\r\n") ++
          ("Content-Type" ++ ": " ++
            mimetype_of (env_of (form_of [] [] [] [] []) "XYZ") "a.pdf" ++ "\r\n")) ++ "\r\n")
        ++ content ∧
      base64.DecodeString content = (f.data, none) ∧
      ('.' ∈ "a.pdf".data ∧ after_last_dot "a.pdf" = "pdf" →
        (env_of (form_of [] [] [] [] []) "XYZ").TypeByExtension ".pdf" = "application/pdf" →
        mimetype_of (env_of (form_of [] [] [] [] []) "XYZ") "a.pdf" = "application/pdf") :=
  C5_attachment_base64_round_trip (env_of (form_of [] [] [] [] []) "XYZ")
    { w := "", boundary := "XYZ", lastpart := some open_part }
    (unattachable (env_of (form_of [] [] [] [] []) "XYZ")
          { w := "", boundary := "XYZ", lastpart := some open_part }
          (file_of "a.pdf" [1, 2, 3, 255])).1
    (file_of "a.pdf" [1, 2, 3, 255]) (by decide)

/-- C6 as stated fails: for a form whose field office holds `x`, `email_body` rejects the
form, and the buffer, empty on entry, holds the opening of the text part. -/
theorem C6_buffer_not_empty_counterexample :
    ∃ mw, email_body (env_of (form_of ["x"] [] [] [] []) "XYZ")
        (some (form_of ["x"] [] [] [] [])) "" =
      Run.ret (mw, some (Error.new "spambot attack suspected")) ∧ mw.w ≠ "" :=
  ⟨_, email_body_spam _ _ "" (by decide), by decide⟩

/-- C6 amended: for a form that `email_body` rejects because the honeypot is not empty, what
has been written to the buffer is the opening of the text part and nothing else (the
delimiter line, the two header lines of the text part and the empty line), no value of
the form; and `handler` sends nothing. -/
theorem C6_only_part_opening_written (env : Env) (form : multipart.Form) (message : String)
    (hs : strings.Join (form.Value "office") "\n" ≠ "") :
    ∃ mw, email_body env (some form) message =
        Run.ret (mw, some (Error.new "spambot attack suspected")) ∧
      mw.w = message ++ ("--" ++ env.randomBoundary ++ "\r\n" ++
        "Content-Transfer-Encoding: quoted-printable\r\nContent-Type: text/plain; charset=utf-8\r\n"
        ++ "\r\n") ∧
      ∀ req, form_fields env req = (some form, none) → (handler env req).sent = [] :=
  ⟨_, email_body_spam env form message hs, rfl,
    fun req h => by rw [handler_of_spam env req form h hs]⟩

/-- C6 amended at a form whose field office holds `x`. -/
theorem C6_only_part_opening_written_witness :
    ∃ mw, email_body (env_of (form_of ["x"] ["Ann"] [] [] []) "XYZ")
        (some (form_of ["x"] ["Ann"] [] [] [])) "" =
        Run.ret (mw, some (Error.new "spambot attack suspected")) ∧
      mw.w = "" ++ ("--" ++ "XYZ" ++ "\r\n" ++
        "Content-Transfer-Encoding: quoted-printable\r\nContent-Type: text/plain; charset=utf-8\r\n"
        ++ "\r\n") ∧
      ∀ req, form_fields (env_of (form_of ["x"] ["Ann"] [] [] []) "XYZ") req =
          (some (form_of ["x"] ["Ann"] [] [] []), none) →
        (handler (env_of (form_of ["x"] ["Ann"] [] [] []) "XYZ") req).sent = [] :=
  C6_only_part_opening_written (env_of (form_of ["x"] ["Ann"] [] [] []) "XYZ")
    (form_of ["x"] ["Ann"] [] [] []) "" (by decide)

/-- C7: when the body is not valid base64 of the standard alphabet, `DecodeString` reports
an error, `form_fields` returns the nil form and an error, `handler` returns the redirect
to the failure page, without a panic, and `unsendable` is not called. -/
theorem C7_bad_base64_fails_without_send (env : Env) (req : APIGatewayProxyRequest)
    (h : ¬ base64.Valid req.Body) :
    (base64.DecodeString req.Body).2 ≠ none ∧
    (form_fields env req).1.isNone = true ∧ (form_fields env req).2 ≠ none ∧
    (handler env req).result = Run.ret (confirmation failure_page) ∧
    (handler env req).sent = [] := by
  have hd : (base64.DecodeString req.Body).2 ≠ none :=
    fun hok => h ((base64.DecodeString_ok_iff req.Body).mp hok)
  have hf : form_fields env req = (none, (base64.DecodeString req.Body).2) := by
    simp [form_fields, hd]
  obtain ⟨e, he⟩ := Option.ne_none_iff_exists'.mp hd
  have h2 : (form_fields env req).2 = some e := by rw [hf, he]
  rw [handler_of_error env req e h2]
  refine ⟨hd, by rw [hf]; rfl, by rw [h2]; simp, rfl, rfl⟩

/-- C7 at a body with a character outside the alphabet. -/
theorem C7_bad_base64_fails_without_send_witness :
    (base64.DecodeString (request_of "AQ!D" "multipart/form-data; boundary=abc").Body).2 ≠ none ∧
    (form_fields (env_of (form_of [] ["Ann"] [] [] []) "XYZ")
      (request_of "AQ!D" "multipart/form-data; boundary=abc")).1.isNone = true ∧
    (form_fields (env_of (form_of [] ["Ann"] [] [] []) "XYZ")
      (request_of "AQ!D" "multipart/form-data; boundary=abc")).2 ≠ none ∧
    (handler (env_of (form_of [] ["Ann"] [] [] []) "XYZ")
      (request_of "AQ!D" "multipart/form-data; boundary=abc")).result =
        Run.ret (confirmation failure_page) ∧
    (handler (env_of (form_of [] ["Ann"] [] [] []) "XYZ")
      (request_of "AQ!D" "multipart/form-data; boundary=abc")).sent = [] :=
  C7_bad_base64_fails_without_send (env_of (form_of [] ["Ann"] [] [] []) "XYZ")
    (request_of "AQ!D" "multipart/form-data; boundary=abc")
    (fun hv => absurd ((base64.DecodeString_ok_iff _).mpr hv) (by decide))

/-- C8, evaluated at the request that declares `application/json`: decoding gives no form
(and no error), writing the text part stops with a panic, and `handler` does not return
the redirect to the failure page, although nothing is sent. -/
theorem C8_failed_decode_not_redirected (env : Env) :
    (form_fields env json_request).1.isNone = true ∧
    email_body env (form_fields env json_request).1 "" = Run.panic ∧
    (handler env json_request).result ≠ Run.ret (confirmation failure_page) ∧
    (handler env json_request).sent = [] := by
  have hf := form_fields_not_multipart env json_request (by decide) (by decide) (by decide)
  rw [handler_of_nil env json_request hf, hf]
  refine ⟨rfl, ?_, by decide, rfl⟩
  simp [email_body, multipart.NewWriter, multipart.Writer.CreatePart,
    multipart.Writer.bufferWrite]

/-- C9: for a decoded form with an empty honeypot whose file parts with a name open and are
read without an error, the body that `handler` hands to `unsendable` is the text part
first, then one part for each file part of the field attachment that has a name, in
their order, then the closing delimiter; a file part without a name gives no part and
does not stop the build, whether it would open or not; so the parts are one more than
the file parts with a name. -/
theorem C9_body_is_text_then_named_files (env : Env) (req : APIGatewayProxyRequest)
    (form : multipart.Form) (h : form_fields env req = (some form, none))
    (hs : strings.Join (form.Value "office") "\n" = "")
    (hf : ∀ fileheader ∈ form.File "attachment", fileheader.Filename ≠ "" → reads_clean fileheader) :
    (handler env req).sent =
      [(header_of env.randomBoundary,
        render_body env.randomBoundary
          (text_part form ::
            ((form.File "attachment").filter (fun fileheader => fileheader.Filename ≠ "")).map
              (attachment_part env)))] ∧
    (text_part form ::
      ((form.File "attachment").filter (fun fileheader => fileheader.Filename ≠ "")).map
        (attachment_part env)).length =
      1 + ((form.File "attachment").filter (fun fileheader => fileheader.Filename ≠ "")).length := by
  rw [handler_of_clean env req form h hs hf]
  refine ⟨rfl, ?_⟩
  simp [Nat.add_comm]

/-- C9 at a form with a file `a.pdf`, a file part without a name that would not open, and a
file `b`: the body has three parts. -/
theorem C9_body_is_text_then_named_files_witness :
    (handler (env_of (form_of [] ["Ann"] [] ["hello"]
        [file_of "a.pdf" [1, 2, 3, 4], { Filename := "", Open := Except.error (Error.file "gone") },
         file_of "b" []]) "XYZ") form_request).sent =
      [(header_of "XYZ",
        render_body "XYZ"
          (text_part (form_of [] ["Ann"] [] ["hello"]
              [file_of "a.pdf" [1, 2, 3, 4],
               { Filename := "", Open := Except.error (Error.file "gone") }, file_of "b" []]) ::
            (([file_of "a.pdf" [1, 2, 3, 4],
               { Filename := "", Open := Except.error (Error.file "gone") },
               file_of "b" []] : List multipart.FileHeader).filter
                (fun fileheader => fileheader.Filename ≠ "")).map
              (attachment_part (env_of (form_of [] ["Ann"] [] ["hello"]
                [file_of "a.pdf" [1, 2, 3, 4],
                 { Filename := "", Open := Except.error (Error.file "gone") },
                 file_of "b" []]) "XYZ"))))] ∧
    (text_part (form_of [] ["Ann"] [] ["hello"]
        [file_of "a.pdf" [1, 2, 3, 4],
         { Filename := "", Open := Except.error (Error.file "gone") }, file_of "b" []]) ::
      (([file_of "a.pdf" [1, 2, 3, 4],
         { Filename := "", Open := Except.error (Error.file "gone") },
         file_of "b" []] : List multipart.FileHeader).filter
          (fun fileheader => fileheader.Filename ≠ "")).map
        (attachment_part (env_of (form_of [] ["Ann"] [] ["hello"]
          [file_of "a.pdf" [1, 2, 3, 4],
           { Filename := "", Open := Except.error (Error.file "gone") },
           file_of "b" []]) "XYZ"))).length =
      1 + (([file_of "a.pdf" [1, 2, 3, 4],
         { Filename := "", Open := Except.error (Error.file "gone") },
         file_of "b" []] : List multipart.FileHeader).filter
          (fun fileheader => fileheader.Filename ≠ "")).length :=
  C9_body_is_text_then_named_files
    (env_of (form_of [] ["Ann"] [] ["hello"]
        [file_of "a.pdf" [1, 2, 3, 4], { Filename := "", Open := Except.error (Error.file "gone") },
         file_of "b" []]) "XYZ") form_request
    (form_of [] ["Ann"] [] ["hello"]
        [file_of "a.pdf" [1, 2, 3, 4], { Filename := "", Open := Except.error (Error.file "gone") },
         file_of "b" []]) rfl (by decide)
    (by
      intro fileheader hmem hne
      simp only [form_of, if_true, List.mem_cons, List.mem_singleton, List.not_mem_nil,
        or_false] at hmem
      rcases hmem with rfl | rfl | rfl
      · exact ⟨_, rfl, rfl⟩
      · exact absurd rfl hne
      · exact ⟨_, rfl, rfl⟩)

/-- C10: the content type in the header that `unattachable` gives to the part is the type
that the registry has for the text after the last dot of the file name, when the name
has a dot and the registry knows a type for that text, and `application/octet-stream`
otherwise. So a name without a dot, a name that ends in a dot (the registry has no type
for the bare dot) and a name whose last extension the registry does not know all get
`application/octet-stream`, and of `a.pdf.xyz` only `xyz` is looked up. -/
theorem C10_content_type_from_last_extension (env : Env) (fileheader : multipart.FileHeader) :
    attachment_header env fileheader =
      [("Content-Type", [declared_type env fileheader.Filename]),
       ("Content-Transfer-Encoding", ["base64"]),
       ("Content-Disposition", ["attachment; filename=\"" ++ fileheader.Filename ++ "\""])] ∧
    ('.' ∉ fileheader.Filename.data →
      mimetype_of env fileheader.Filename = "application/octet-stream") ∧
    (∀ stem, fileheader.Filename = stem ++ "." → env.TypeByExtension "." = "" →
      mimetype_of env fileheader.Filename = "application/octet-stream") ∧
    (env.TypeByExtension ("." ++ after_last_dot fileheader.Filename) = "" →
      mimetype_of env fileheader.Filename = "application/octet-stream") ∧
    mimetype_of env "a.pdf.xyz" =
      (if env.TypeByExtension ".xyz" = "" then "application/octet-stream"
       else env.TypeByExtension ".xyz") := by
  refine ⟨by simp [attachment_header, mimetype_of_eq], ?_, ?_, ?_, ?_⟩
  · intro hdot
    simp [mimetype_of_eq, declared_type, hdot]
  · intro stem hstem hreg
    have hext : after_last_dot fileheader.Filename = "" := by
      simp [after_last_dot, hstem, String.data_append]
    have : env.TypeByExtension ("." ++ "") = "" := hreg
    simp [mimetype_of_eq, declared_type, hext, this, hreg]
  · intro hreg
    simp [mimetype_of_eq, declared_type, hreg]
  · have hext : after_last_dot "a.pdf.xyz" = "xyz" := by decide
    have hdot : '.' ∈ "a.pdf.xyz".data := by decide
    have h1 : "." ++ "xyz" = ".xyz" := by decide
    rw [mimetype_of_eq, declared_type, hext, h1]
    by_cases hreg : env.TypeByExtension ".xyz" = ""
    · simp [hreg]
    · simp [hreg, hdot]

/-! ## Lemmas for the claims on the text, the header and the streams -/

theorem email_body_congr (env : Env) (form1 form2 : multipart.Form) (message : String)
    (hv : ∀ k, form1.Value k = form2.Value k) :
    email_body env (some form1) message = email_body env (some form2) message := by
  simp only [email_body, hv]

namespace base64

theorem encode_mem (v : Nat) : encode v ∈ encodeStd := by
  by_cases h : v < 64
  · have : ∀ i : Fin 64, encode i.val ∈ encodeStd := by decide
    exact this ⟨v, h⟩
  · have hlen : encodeStd.length = 64 := by decide
    have hd : encodeStd.getD v 'A' = 'A' := by
      rw [List.getD_eq_getElem?_getD, List.getElem?_eq_none (by omega)]
      rfl
    rw [encode, hd]
    decide

theorem encode_not_newline (v : Nat) : isNewline (encode v) = false := by
  cases h : isNewline (encode v) with
  | false => rfl
  | true => exact absurd (encode_mem v) (newline_not_mem _ h)

/-- The text that `Encode` writes has four characters for every three bytes, the last
group filled up. -/
theorem encodeList_length : ∀ bs : List Byte, (encodeList bs).length = 4 * ((bs.length + 2) / 3)
  | [] => rfl
  | [_] => by simp [encodeList]
  | [_, _] => by simp [encodeList]
  | _ :: _ :: _ :: rest => by
    have ih := encodeList_length rest
    simp only [encodeList, List.length_cons, ih]
    omega

/-- The text that `Encode` writes holds no line end. -/
theorem encodeList_no_newline : ∀ (bs : List Byte) (c : Char), c ∈ encodeList bs →
    isNewline c = false
  | [], c, h => by simp [encodeList] at h
  | [b0], c, h => by
    simp only [encodeList, List.mem_cons, List.mem_singleton, List.not_mem_nil, or_false] at h
    rcases h with rfl | rfl | rfl | rfl
    · exact encode_not_newline _
    · exact encode_not_newline _
    · exact pad_not_newline
    · exact pad_not_newline
  | [b0, b1], c, h => by
    simp only [encodeList, List.mem_cons, List.mem_singleton, List.not_mem_nil, or_false] at h
    rcases h with rfl | rfl | rfl | rfl
    · exact encode_not_newline _
    · exact encode_not_newline _
    · exact encode_not_newline _
    · exact pad_not_newline
  | b0 :: b1 :: b2 :: rest, c, h => by
    simp only [encodeList, List.mem_cons] at h
    rcases h with rfl | rfl | rfl | rfl | h
    · exact encode_not_newline _
    · exact encode_not_newline _
    · exact encode_not_newline _
    · exact encode_not_newline _
    · exact encodeList_no_newline rest c h

end base64

/-- The function with the state of the stream returns what `unattachable` returns. -/
theorem unattachable_stream_eq (env : Env) (mw : multipart.Writer)
    (fileheader : multipart.FileHeader) :
    ((unattachable_stream env mw fileheader).1, (unattachable_stream env mw fileheader).2.1) =
      unattachable env mw fileheader := by
  unfold unattachable_stream unattachable open_stream copy_stream
  cases hf : fileheader.Open with
  | error e => rfl
  | ok f =>
    simp only
    split
    · rfl
    · split
      · rfl
      · rfl

namespace strings

theorem splitAux_no_sep (sep : Char) : ∀ (l cur : List Char), sep ∉ l →
    splitAux sep l cur = [String.mk (cur.reverse ++ l)]
  | [], cur, _ => by simp [splitAux]
  | c :: l, cur, h => by
    have hc : c ≠ sep := fun e => h (e ▸ List.mem_cons_self _ _)
    have hl : sep ∉ l := fun m => h (List.mem_cons_of_mem _ m)
    simp [splitAux, hc, splitAux_no_sep sep l (c :: cur) hl]

/-- A split cuts off the text before the first separator. -/
theorem splitAux_append (sep : Char) (rest : List Char) : ∀ (l cur : List Char), sep ∉ l →
    splitAux sep (l ++ sep :: rest) cur = String.mk (cur.reverse ++ l) :: splitAux sep rest []
  | [], cur, _ => by simp [splitAux]
  | c :: l, cur, h => by
    have hc : c ≠ sep := fun e => h (e ▸ List.mem_cons_self _ _)
    have hl : sep ∉ l := fun m => h (List.mem_cons_of_mem _ m)
    simp [splitAux, hc, splitAux_append sep rest l (c :: cur) hl]

end strings

/-- The header as a list of characters: six lines, each ended by a line feed, and one
more line feed. -/
theorem header_of_data (boundary : String) :
    (header_of boundary).data =
      "MIME-Version: 1.0".data ++ '\n' ::
      ("Content-Disposition: inline".data ++ '\n' ::
      (("Content-Type: multipart/mixed; boundary=\"".data ++ (boundary.data ++ ['"'])) ++ '\n' ::
      (("From: " ++ sender).data ++ '\n' ::
      (("To: " ++ recipient).data ++ '\n' ::
      (("Subject: " ++ subject).data ++ '\n' :: ['\n']))))) := by
  simp only [header_of, String.data_append, List.append_assoc]
  rfl

namespace mime

/-- A quoted string of plain characters is read up to its closing quote, as it is. -/
theorem consumeQuoted_plain (rest : List Char) : ∀ (f buf : List Char),
    (∀ c ∈ f, plain_char c = true) →
    consumeQuoted (f ++ '"' :: rest) buf = some (buf.reverse ++ f, rest)
  | [], buf, _ => by simp [consumeQuoted]
  | c :: f, buf, h => by
    have hc := h c (List.mem_cons_self _ _)
    have hf : ∀ d ∈ f, plain_char d = true := fun d hd => h d (List.mem_cons_of_mem _ hd)
    simp only [plain_char, Bool.and_eq_true, decide_eq_true_eq] at hc
    obtain ⟨⟨⟨h1, h2⟩, h3⟩, h4⟩ := hc
    have ih := consumeQuoted_plain rest f (c :: buf) hf
    rw [List.cons_append, consumeQuoted]
    · simp [h3, h4, ih]
    · exact h1
    · intro c2 rest2 hcon _
      exact h2 hcon

end mime

namespace mime

theorem consumeValue_quoted (f : List Char) (hf : ∀ c ∈ f, plain_char c = true) :
    consumeValue ('"' :: (f ++ ['"'])) = (f, []) := by
  simp [consumeValue, consumeQuoted_plain [] f [] hf]

theorem consumeMediaParam_filename (f : List Char) (hf : ∀ c ∈ f, plain_char c = true) :
    consumeMediaParam ("; filename=\"".data ++ (f ++ ['"'])) = ("filename".data, f, []) := by
  have hlit : "; filename=\"".data ++ (f ++ ['"']) =
      ';' :: ' ' :: 'f' :: 'i' :: 'l' :: 'e' :: 'n' :: 'a' :: 'm' :: 'e' :: '=' :: '"' ::
        (f ++ ['"']) := rfl
  have e1 : strings.trimLeftSpace
      (';' :: ' ' :: 'f' :: 'i' :: 'l' :: 'e' :: 'n' :: 'a' :: 'm' :: 'e' :: '=' :: '"' ::
        (f ++ ['"'])) =
      ';' :: ' ' :: 'f' :: 'i' :: 'l' :: 'e' :: 'n' :: 'a' :: 'm' :: 'e' :: '=' :: '"' ::
        (f ++ ['"']) := rfl
  have e2 : strings.trimLeftSpace
      (' ' :: 'f' :: 'i' :: 'l' :: 'e' :: 'n' :: 'a' :: 'm' :: 'e' :: '=' :: '"' ::
        (f ++ ['"'])) =
      'f' :: 'i' :: 'l' :: 'e' :: 'n' :: 'a' :: 'm' :: 'e' :: '=' :: '"' :: (f ++ ['"']) := rfl
  have e3 : consumeToken
      ('f' :: 'i' :: 'l' :: 'e' :: 'n' :: 'a' :: 'm' :: 'e' :: '=' :: '"' :: (f ++ ['"'])) =
      ("filename".data, '=' :: '"' :: (f ++ ['"'])) := rfl
  have e4 : strings.trimLeftSpace ('=' :: '"' :: (f ++ ['"'])) = '=' :: '"' :: (f ++ ['"']) := rfl
  have e5 : strings.trimLeftSpace ('"' :: (f ++ ['"'])) = '"' :: (f ++ ['"']) := rfl
  have e6 : "filename".data.map strings.toLowerChar = "filename".data := by decide
  rw [hlit]
  simp only [consumeMediaParam, e1, e2, e3, e4, e5, e6, consumeValue_quoted f hf]
  simp

end mime

namespace mime

theorem parseParams_done (mediatype : String) (params : Params)
    (continuation : List (String × Params)) :
    ∀ fuel, parseParams mediatype fuel [] params continuation = Sum.inr (params, continuation)
  | 0 => rfl
  | fuel + 1 => by simp [parseParams, strings.trimLeftSpace]

/-- A disposition with the file name as a quoted string reads back to that name when the
name has no double quote, no backslash and no line end. -/
theorem ParseMediaType_disposition (f : String) (hf : ∀ c ∈ f.data, plain_char c = true) :
    ParseMediaType (disposition_value f) = ("attachment", some [("filename", f)], none) := by
  have hdata : (disposition_value f).data =
      "attachment".data ++ ';' :: (" filename=\"".data ++ (f.data ++ ['"'])) := by
    simp only [disposition_value, String.data_append, List.append_assoc]
    rfl
  have hbase : (disposition_value f).data.takeWhile (· ≠ ';') = "attachment".data := by
    rw [hdata, strings.takeWhile_append_stop _ ';' (by decide)]
    decide
  have hdrop : (disposition_value f).data.drop "attachment".data.length =
      "; filename=\"".data ++ (f.data ++ ['"']) := by
    rw [hdata]
    rfl
  have hmt : String.mk (strings.trimSpaceList ("attachment".data.map strings.toLowerChar)) =
      "attachment" := by decide
  have hcheck : checkMediaTypeDisposition "attachment".data = none := by decide
  have htrim : strings.trimLeftSpace ("; filename=\"".data ++ (f.data ++ ['"'])) =
      "; filename=\"".data ++ (f.data ++ ['"']) := rfl
  have hne : ("; filename=\"".data ++ (f.data ++ ['"'])).isEmpty = false := rfl
  have hkey : (String.mk "filename".data).data.contains '*' = false := by decide
  have hk2 : "filename".data.isEmpty = false := by decide
  simp only [ParseMediaType, hbase, hmt, hcheck, hdrop]
  rw [parseParams]
  simp only [htrim, hne, consumeMediaParam_filename f.data hf, hk2, hkey, get?, parseParams_done,
    stitch]
  rfl

end mime

/-! ## The claims, continued -/

/-- C11, evaluated at two file names. For `a"b.txt` the header `Content-Disposition` of the
part is `attachment; filename="a"b.txt"`, which does not read back: the parameter is
invalid. For `a\\b.txt`, with two backslashes, the header reads back to the name with one
backslash. The name is put between the quotes as it is, without escaping. -/
theorem C11_filename_not_escaped (env : Env) :
    mime.get? (attachment_header env (file_of "a\"b.txt" [])) "Content-Disposition" =
      some ["attachment; filename=\"a\"b.txt\""] ∧
    mime.ParseMediaType "attachment; filename=\"a\"b.txt\"" =
      ("attachment", none, some (Error.mime "mime: invalid media parameter")) ∧
    mime.get? (attachment_header env (file_of "a\\\\b.txt" [])) "Content-Disposition" =
      some ["attachment; filename=\"a\\\\b.txt\""] ∧
    mime.ParseMediaType "attachment; filename=\"a\\\\b.txt\"" =
      ("attachment", some [("filename", "a\\b.txt")], none) ∧
    "a\\b.txt" ≠ "a\\\\b.txt" :=
  ⟨rfl, by decide, rfl, by decide, by decide⟩

/-- C12: in a run of `handler` that reaches the send, the header handed to `unsendable`
quotes, as the boundary parameter, the token of the writer, and the body is that of the
decoded form: the text part and the parts of the named file parts of the field
attachment, every one behind a delimiter line of that same token (the first `--b`, the
later ones `--b` after a line end), ended by the closing delimiter line `--b--` of that
token. -/
theorem C12_boundary_same_in_header_and_body (env : Env) (req : APIGatewayProxyRequest)
    (m : String × String) (hm : m ∈ (handler env req).sent) :
    ∃ form, form_fields env req = (some form, none) ∧
      m.1 = header_of env.randomBoundary ∧
      header_of env.randomBoundary =
        "MIME-Version: 1.0\n" ++ "Content-Disposition: inline\n" ++
          ("Content-Type: multipart/mixed; boundary=\"" ++ env.randomBoundary ++ "\"\n") ++
          ("From: " ++ sender ++ "\n") ++ ("To: " ++ recipient ++ "\n") ++
          ("Subject: " ++ subject ++ "\n\n") ∧
      m.2 = render_body env.randomBoundary
        (text_part form ::
          ((form.File "attachment").filter (fun fileheader => fileheader.Filename ≠ "")).map
            (attachment_part env)) ∧
      (∀ (p : MimePart) (rest : List MimePart),
        render_body env.randomBoundary (p :: rest) =
          "--" ++ env.randomBoundary ++ "\r\n" ++ p.render ++ render_more env.randomBoundary rest ++
            ("\r\n--" ++ env.randomBoundary ++ "--\r\n")) ∧
      render_more env.randomBoundary [] = "" ∧
      (∀ (p : MimePart) (rest : List MimePart),
        render_more env.randomBoundary (p :: rest) =
          "\r\n--" ++ env.randomBoundary ++ "\r\n" ++ p.render ++
            render_more env.randomBoundary rest) := by
  have hne : (handler env req).sent ≠ [] := by
    intro h
    rw [h] at hm
    cases hm
  obtain ⟨form, _, _, _, hform, hs, _, _, hclean, _, _⟩ := (handler_send_discipline env req).2.1 hne
  rw [handler_of_clean env req form hform hs hclean] at hm
  simp only [List.mem_singleton] at hm
  subst hm
  exact ⟨form, hform, rfl, rfl, rfl, fun _ _ => rfl, rfl, fun _ _ => rfl⟩

/-- C12 at the request with the sample body, the boundary token of the writer `XYZ`. -/
theorem C12_boundary_same_in_header_and_body_witness :
    ∃ form, form_fields (env_sample "XYZ") sample_request = (some form, none) ∧
      (header_of "XYZ", built_body (env_sample "XYZ") sample_form).1 = header_of "XYZ" ∧
      header_of "XYZ" =
        "MIME-Version: 1.0\n" ++ "Content-Disposition: inline\n" ++
          ("Content-Type: multipart/mixed; boundary=\"" ++ "XYZ" ++ "\"\n") ++
          ("From: " ++ sender ++ "\n") ++ ("To: " ++ recipient ++ "\n") ++
          ("Subject: " ++ subject ++ "\n\n") ∧
      (header_of "XYZ", built_body (env_sample "XYZ") sample_form).2 =
        render_body "XYZ"
          (text_part form ::
            ((form.File "attachment").filter (fun fileheader => fileheader.Filename ≠ "")).map
              (attachment_part (env_sample "XYZ"))) ∧
      (∀ (p : MimePart) (rest : List MimePart),
        render_body "XYZ" (p :: rest) =
          "--" ++ "XYZ" ++ "\r\n" ++ p.render ++ render_more "XYZ" rest ++
            ("\r\n--" ++ "XYZ" ++ "--\r\n")) ∧
      render_more "XYZ" [] = "" ∧
      (∀ (p : MimePart) (rest : List MimePart),
        render_more "XYZ" (p :: rest) =
          "\r\n--" ++ "XYZ" ++ "\r\n" ++ p.render ++ render_more "XYZ" rest) :=
  C12_boundary_same_in_header_and_body (env_sample "XYZ") sample_request
    (header_of "XYZ", built_body (env_sample "XYZ") sample_form)
    (by
      rw [handler_of_clean (env_sample "XYZ") sample_request sample_form rfl (by decide) (by
          intro fileheader hmem _
          cases hmem)]
      exact List.mem_singleton.mpr rfl)

/-- C13: for a decoded form with an empty honeypot, `email_body` writes into the text part
exactly `name:  ` and the name, an empty line, `email: ` and the e-mail address, an empty
line, `message:`, an empty line and the message, in this order, where each of the three
is the values of its field joined with line ends, or `(withheld)` when that is empty (as
it is for a field that is absent). -/
theorem C13_text_content_exact (env : Env) (form : multipart.Form) (message : String)
    (hs : strings.Join (form.Value "office") "\n" = "") :
    ∃ mw, email_body env (some form) message = Run.ret (mw, none) ∧
      mw.w = message ++ ("--" ++ env.randomBoundary ++ "\r\n" ++
          "Content-Transfer-Encoding: quoted-printable\r\nContent-Type: text/plain; charset=utf-8\r\n"
          ++ "\r\n") ++
        ("name:  " ++
            (if strings.Join (form.Value "name") "\n" = "" then "(withheld)"
             else strings.Join (form.Value "name") "\n") ++ "\n\n" ++
          ("email: " ++
            (if strings.Join (form.Value "email") "\n" = "" then "(withheld)"
             else strings.Join (form.Value "email") "\n") ++ "\n\n") ++
          ("message:\n\n" ++
            (if strings.Join (form.Value "message") "\n" = "" then "(withheld)"
             else strings.Join (form.Value "message") "\n"))) :=
  ⟨_, email_body_ok env form message hs, rfl⟩

/-- C13 at a form with two values of the name, no e-mail address and a message. -/
theorem C13_text_content_exact_witness :
    ∃ mw, email_body (env_of (form_of [] ["Ann", "Lee"] [] ["hello"] []) "XYZ")
        (some (form_of [] ["Ann", "Lee"] [] ["hello"] [])) "" = Run.ret (mw, none) ∧
      mw.w = "" ++ ("--" ++ "XYZ" ++ "\r\n" ++
          "Content-Transfer-Encoding: quoted-printable\r\nContent-Type: text/plain; charset=utf-8\r\n"
          ++ "\r\n") ++
        ("name:  " ++
            (if strings.Join ["Ann", "Lee"] "\n" = "" then "(withheld)"
             else strings.Join ["Ann", "Lee"] "\n") ++ "\n\n" ++
          ("email: " ++
            (if strings.Join [] "\n" = "" then "(withheld)"
             else strings.Join [] "\n") ++ "\n\n") ++
          ("message:\n\n" ++
            (if strings.Join ["hello"] "\n" = "" then "(withheld)"
             else strings.Join ["hello"] "\n"))) :=
  C13_text_content_exact (env_of (form_of [] ["Ann", "Lee"] [] ["hello"] []) "XYZ")
    (form_of [] ["Ann", "Lee"] [] ["hello"] []) "" (by decide)

/-- C14: for a boundary token without a line feed, `header_of` is six lines, each ended by a
line feed, in this order: `MIME-Version: 1.0`, `Content-Disposition: inline`,
`Content-Type: multipart/mixed; boundary="b"`, `From:` with the sender, `To:` with the
recipient, `Subject:` with the subject, and then an empty line: cut at the line feeds,
the header is these six lines and two empty texts, the empty line and the empty rest. -/
theorem C14_header_six_lines (boundary : String) (hb : '\n' ∉ boundary.data) :
    header_of boundary =
      "MIME-Version: 1.0" ++ "\n" ++ ("Content-Disposition: inline" ++ "\n") ++
        ("Content-Type: multipart/mixed; boundary=\"" ++ boundary ++ "\"" ++ "\n") ++
        ("From: " ++ sender ++ "\n") ++ ("To: " ++ recipient ++ "\n") ++
        ("Subject: " ++ subject ++ "\n") ++ "\n" ∧
    strings.Split (header_of boundary) '\n' =
      ["MIME-Version: 1.0", "Content-Disposition: inline",
       "Content-Type: multipart/mixed; boundary=\"" ++ boundary ++ "\"",
       "From: " ++ sender, "To: " ++ recipient, "Subject: " ++ subject, "", ""] := by
  constructor
  · apply String.ext
    simp only [header_of, String.data_append, List.append_assoc]
    rfl
  · have h3 : '\n' ∉ "Content-Type: multipart/mixed; boundary=\"".data ++ (boundary.data ++ ['"']) := by
      intro h
      rcases List.mem_append.mp h with h | h
      · exact absurd h (by decide)
      · rcases List.mem_append.mp h with h | h
        · exact hb h
        · exact absurd h (by decide)
    rw [strings.Split, header_of_data,
      strings.splitAux_append '\n' _ _ [] (by decide),
      strings.splitAux_append '\n' _ _ [] (by decide),
      strings.splitAux_append '\n' _ _ [] h3,
      strings.splitAux_append '\n' _ _ [] (by decide),
      strings.splitAux_append '\n' _ _ [] (by decide),
      strings.splitAux_append '\n' _ _ [] (by decide)]
    simp only [strings.splitAux, List.reverse_nil, List.nil_append, if_true]
    rfl

/-- C14 at the boundary token `XYZ`. -/
theorem C14_header_six_lines_witness :
    header_of "XYZ" =
      "MIME-Version: 1.0" ++ "\n" ++ ("Content-Disposition: inline" ++ "\n") ++
        ("Content-Type: multipart/mixed; boundary=\"" ++ "XYZ" ++ "\"" ++ "\n") ++
        ("From: " ++ sender ++ "\n") ++ ("To: " ++ recipient ++ "\n") ++
        ("Subject: " ++ subject ++ "\n") ++ "\n" ∧
    strings.Split (header_of "XYZ") '\n' =
      ["MIME-Version: 1.0", "Content-Disposition: inline",
       "Content-Type: multipart/mixed; boundary=\"" ++ "XYZ" ++ "\"",
       "From: " ++ sender, "To: " ++ recipient, "Subject: " ++ subject, "", ""] :=
  C14_header_six_lines "XYZ" (by decide)

/-- C15 as stated fails. The sample request, whose body is the base64 text of a multipart
body and whose content type stands under the key `content-type`, is decoded to a form,
and `handler` sends the e-mail and returns the redirect to the success page; the same
request with that value under the key `Content-Type` is not decoded: `form_fields`
returns the error of the parse of an empty content type, and `handler` the redirect to
the failure page. -/
theorem C15_header_name_case_counterexample :
    base64.DecodeString sample_form_body = (sample_form_bytes, none) ∧
    sample_request.Headers "content-type" = "multipart/form-data; boundary=abc" ∧
    sample_request_cased.Headers "Content-Type" = "multipart/form-data; boundary=abc" ∧
    sample_request_cased.Headers "content-type" = "" ∧
    sample_request_cased.Body = sample_request.Body ∧
    form_fields (env_sample "XYZ") sample_request = (some sample_form, none) ∧
    (handler (env_sample "XYZ") sample_request).result = Run.ret (confirmation success_page) ∧
    (form_fields (env_sample "XYZ") sample_request_cased).1.isNone = true ∧
    (form_fields (env_sample "XYZ") sample_request_cased).2 =
      some (Error.mime "mime: no media type") ∧
    (handler (env_sample "XYZ") sample_request_cased).result =
      Run.ret (confirmation failure_page) := by
  have h1 : form_fields (env_sample "XYZ") sample_request = (some sample_form, none) := rfl
  have h2 : (form_fields (env_sample "XYZ") sample_request_cased).2 =
      some (Error.mime "mime: no media type") := rfl
  refine ⟨rfl, rfl, rfl, rfl, rfl, h1, ?_, rfl, h2, ?_⟩
  · rw [handler_of_clean (env_sample "XYZ") sample_request sample_form h1 (by decide) (by
        intro fileheader hmem _
        cases hmem)]
    rfl
  · rw [handler_of_error (env_sample "XYZ") sample_request_cased _ h2]

/-- C15 amended: decoding reads the content type under the exact key `content-type` and
nowhere else. Two requests with the same body and the same value under that key are
decoded alike, and `handler` runs alike on them, whatever stands under other keys, such
as `Content-Type`; and a request without a value under that key is not decoded:
`form_fields` returns an error and `handler` the redirect to the failure page. -/
theorem C15_decoding_reads_exact_key (env : Env) (req req2 : APIGatewayProxyRequest)
    (hb : req.Body = req2.Body)
    (hh : req.Headers "content-type" = req2.Headers "content-type") :
    form_fields env req = form_fields env req2 ∧ handler env req = handler env req2 ∧
    (req.Headers "content-type" = "" →
      (form_fields env req).1.isNone = true ∧ (form_fields env req).2 ≠ none ∧
      (handler env req).result = Run.ret (confirmation failure_page)) := by
  have hf : form_fields env req = form_fields env req2 := by
    simp only [form_fields, hb, hh]
  refine ⟨hf, by simp only [handler, hf], ?_⟩
  intro hempty
  have hp : mime.ParseMediaType "" = ("", none, some (Error.mime "mime: no media type")) := by
    decide
  have herr : ∃ e, form_fields env req = (none, some e) := by
    cases hd : (base64.DecodeString req.Body).2 with
    | some e => exact ⟨e, by simp [form_fields, hd]⟩
    | none => exact ⟨Error.mime "mime: no media type", by simp [form_fields, hd, hempty, hp]⟩
  obtain ⟨e, he⟩ := herr
  have h2 : (form_fields env req).2 = some e := by rw [he]
  rw [handler_of_error env req e h2, he]
  exact ⟨rfl, by simp, rfl⟩

/-- C15 amended at the sample request, beside the same request with another value under
the key `Content-Type` as well: both are decoded to the sample form. -/
theorem C15_decoding_reads_exact_key_witness :
    form_fields (env_sample "XYZ")
        { Headers := fun k =>
            if k = "content-type" then "multipart/form-data; boundary=abc"
            else if k = "Content-Type" then "text/plain" else "",
          Body := sample_form_body } =
      form_fields (env_sample "XYZ") sample_request ∧
    handler (env_sample "XYZ")
        { Headers := fun k =>
            if k = "content-type" then "multipart/form-data; boundary=abc"
            else if k = "Content-Type" then "text/plain" else "",
          Body := sample_form_body } =
      handler (env_sample "XYZ") sample_request ∧
    ((({ Headers := fun k =>
            if k = "content-type" then "multipart/form-data; boundary=abc"
            else if k = "Content-Type" then "text/plain" else "",
          Body := sample_form_body } : APIGatewayProxyRequest).Headers "content-type") = "" →
      (form_fields (env_sample "XYZ")
        { Headers := fun k =>
            if k = "content-type" then "multipart/form-data; boundary=abc"
            else if k = "Content-Type" then "text/plain" else "",
          Body := sample_form_body }).1.isNone = true ∧
      (form_fields (env_sample "XYZ")
        { Headers := fun k =>
            if k = "content-type" then "multipart/form-data; boundary=abc"
            else if k = "Content-Type" then "text/plain" else "",
          Body := sample_form_body }).2 ≠ none ∧
      (handler (env_sample "XYZ")
        { Headers := fun k =>
            if k = "content-type" then "multipart/form-data; boundary=abc"
            else if k = "Content-Type" then "text/plain" else "",
          Body := sample_form_body }).result = Run.ret (confirmation failure_page)) :=
  C15_decoding_reads_exact_key (env_sample "XYZ")
    { Headers := fun k =>
        if k = "content-type" then "multipart/form-data; boundary=abc"
        else if k = "Content-Type" then "text/plain" else "",
      Body := sample_form_body }
    sample_request rfl rfl

/-- C16 as stated fails: on the success path, for a file of three bytes written after the
text part, `unattachable` returns without an error and the stream it opened has not been
closed. -/
theorem C16_stream_left_open_counterexample :
    (unattachable_stream (env_of (form_of [] [] [] [] []) "XYZ")
      { w := "", boundary := "XYZ", lastpart := some open_part }
      (file_of "a.pdf" [1, 2, 3])).2.1 = none ∧
    (unattachable_stream (env_of (form_of [] [] [] [] []) "XYZ")
      { w := "", boundary := "XYZ", lastpart := some open_part }
      (file_of "a.pdf" [1, 2, 3])).2.2 =
        some { file := { data := [1, 2, 3], err := none }, closed := false } := by
  decide

/-- C16 amended: `unattachable` never closes the stream it opens. For every call in which
`Open ()` succeeds, the stream is still open when the function returns, on the success
path and on every failure path (the part cannot be created, copying fails, the encoder
cannot be closed); the results are those of `unattachable`. -/
theorem C16_stream_never_closed (env : Env) (mw : multipart.Writer)
    (fileheader : multipart.FileHeader) (f : multipart.File)
    (hf : fileheader.Open = Except.ok f) :
    (unattachable_stream env mw fileheader).2.2 = some { file := f, closed := false } ∧
    ((unattachable_stream env mw fileheader).1, (unattachable_stream env mw fileheader).2.1) =
      unattachable env mw fileheader := by
  refine ⟨?_, unattachable_stream_eq env mw fileheader⟩
  unfold unattachable_stream open_stream copy_stream
  simp only [hf]
  split
  · rfl
  · split
    · rfl
    · rfl

/-- C16 amended at a file whose reading fails after two bytes: the copy fails, and the
stream is left open. -/
theorem C16_stream_never_closed_witness :
    (unattachable_stream (env_of (form_of [] [] [] [] []) "XYZ")
      { w := "", boundary := "XYZ", lastpart := some open_part }
      (broken_file "a.pdf" [1, 2])).2.2 =
        some { file := { data := [1, 2], err := some (Error.file "read") }, closed := false } ∧
    ((unattachable_stream (env_of (form_of [] [] [] [] []) "XYZ")
        { w := "", boundary := "XYZ", lastpart := some open_part }
        (broken_file "a.pdf" [1, 2])).1,
     (unattachable_stream (env_of (form_of [] [] [] [] []) "XYZ")
        { w := "", boundary := "XYZ", lastpart := some open_part }
        (broken_file "a.pdf" [1, 2])).2.1) =
      unattachable (env_of (form_of [] [] [] [] []) "XYZ")
        { w := "", boundary := "XYZ", lastpart := some open_part }
        (broken_file "a.pdf" [1, 2]) :=
  C16_stream_never_closed (env_of (form_of [] [] [] [] []) "XYZ")
    { w := "", boundary := "XYZ", lastpart := some open_part }
    (broken_file "a.pdf" [1, 2]) { data := [1, 2], err := some (Error.file "read") } rfl

/-- C17: two decoded forms that agree on their text values and on the file parts of the
field attachment give the same run of `handler`: the same response, and the same header
and body handed to `unsendable`; and a body that is handed over is the text part and the
parts of the named file parts of the field attachment, so that the file parts under
other field names give no part and play no part. -/
theorem C17_other_file_fields_ignored (env : Env) (req1 req2 : APIGatewayProxyRequest)
    (form1 form2 : multipart.Form)
    (h1 : form_fields env req1 = (some form1, none))
    (h2 : form_fields env req2 = (some form2, none))
    (hv : ∀ k, form1.Value k = form2.Value k)
    (hf : form1.File "attachment" = form2.File "attachment") :
    handler env req1 = handler env req2 ∧
    ∀ m ∈ (handler env req1).sent,
      m.2 = render_body env.randomBoundary
        (text_part form1 ::
          ((form1.File "attachment").filter (fun fileheader => fileheader.Filename ≠ "")).map
            (attachment_part env)) := by
  refine ⟨by simp only [handler, h1, h2, email_body_congr env form1 form2 "" hv, hf], ?_⟩
  intro m hm
  have hne : (handler env req1).sent ≠ [] := by
    intro h
    rw [h] at hm
    cases hm
  obtain ⟨form, _, _, _, hform, hs, _, _, hclean, _, _⟩ :=
    (handler_send_discipline env req1).2.1 hne
  rw [h1] at hform
  cases hform
  rw [handler_of_clean env req1 form1 h1 hs hclean] at hm
  simp only [List.mem_singleton] at hm
  subst hm
  rfl

/-- C17 at two forms with the same text values and the same file part of the field
attachment, the second with a file part under the field photo as well. -/
theorem C17_other_file_fields_ignored_witness :
    handler
        (env_two (form_with_other [] ["Ann"] [] ["hello"] [file_of "a.pdf" [1, 2, 3]] [])
          (form_with_other [] ["Ann"] [] ["hello"] [file_of "a.pdf" [1, 2, 3]]
            [file_of "me.png" [7, 7]]) "XYZ")
        (request_of "AQID" "multipart/form-data; boundary=abc") =
      handler
        (env_two (form_with_other [] ["Ann"] [] ["hello"] [file_of "a.pdf" [1, 2, 3]] [])
          (form_with_other [] ["Ann"] [] ["hello"] [file_of "a.pdf" [1, 2, 3]]
            [file_of "me.png" [7, 7]]) "XYZ")
        (request_of "BAUG" "multipart/form-data; boundary=abc") ∧
    ∀ m ∈ (handler
        (env_two (form_with_other [] ["Ann"] [] ["hello"] [file_of "a.pdf" [1, 2, 3]] [])
          (form_with_other [] ["Ann"] [] ["hello"] [file_of "a.pdf" [1, 2, 3]]
            [file_of "me.png" [7, 7]]) "XYZ")
        (request_of "AQID" "multipart/form-data; boundary=abc")).sent,
      m.2 = render_body "XYZ"
        (text_part (form_with_other [] ["Ann"] [] ["hello"] [file_of "a.pdf" [1, 2, 3]] []) ::
          (([file_of "a.pdf" [1, 2, 3]] : List multipart.FileHeader).filter
              (fun fileheader => fileheader.Filename ≠ "")).map
            (attachment_part
              (env_two (form_with_other [] ["Ann"] [] ["hello"] [file_of "a.pdf" [1, 2, 3]] [])
                (form_with_other [] ["Ann"] [] ["hello"] [file_of "a.pdf" [1, 2, 3]]
                  [file_of "me.png" [7, 7]]) "XYZ"))) :=
  C17_other_file_fields_ignored
    (env_two (form_with_other [] ["Ann"] [] ["hello"] [file_of "a.pdf" [1, 2, 3]] [])
      (form_with_other [] ["Ann"] [] ["hello"] [file_of "a.pdf" [1, 2, 3]]
        [file_of "me.png" [7, 7]]) "XYZ")
    (request_of "AQID" "multipart/form-data; boundary=abc")
    (request_of "BAUG" "multipart/form-data; boundary=abc")
    (form_with_other [] ["Ann"] [] ["hello"] [file_of "a.pdf" [1, 2, 3]] [])
    (form_with_other [] ["Ann"] [] ["hello"] [file_of "a.pdf" [1, 2, 3]]
      [file_of "me.png" [7, 7]])
    rfl rfl (fun _ => rfl) rfl

/-- C18: when `unattachable` succeeds on a file of `n` bytes, the content of the part is
the padded base64 text of the bytes in one run: it holds no CR and no LF, and its length
is four times the number of groups of three bytes, the last one counted when it is not
full. -/
theorem C18_attachment_content_unbroken (env : Env) (mw mw1 : multipart.Writer)
    (fileheader : multipart.FileHeader) (h : unattachable env mw fileheader = (mw1, none)) :
    ∃ f content, fileheader.Open = Except.ok f ∧
      mw1.w = mw.w ++
        (delimiter mw ++ attachment_header_lines env fileheader.Filename ++ "\r\n") ++ content ∧
      content = base64.EncodeToString f.data ∧
      '\r' ∉ content.data ∧ '\n' ∉ content.data ∧
      content.length = 4 * ((f.data.length + 2) / 3) := by
  obtain ⟨hm, f, hf, he⟩ := unattachable_none_inv env mw mw1 fileheader h
  rw [unattachable_ok env mw fileheader f hf he hm] at h
  have hw := congrArg (fun r => r.1.w) h
  simp only at hw
  refine ⟨f, base64.EncodeToString f.data, hf, hw.symm, rfl, ?_, ?_, ?_⟩
  · intro hmem
    have := base64.encodeList_no_newline f.data '\r' hmem
    exact absurd this (by decide)
  · intro hmem
    have := base64.encodeList_no_newline f.data '\n' hmem
    exact absurd this (by decide)
  · simp [base64.EncodeToString, String.length, base64.encodeList_length]

/-- C18 at a file of four bytes: the content has eight characters. -/
theorem C18_attachment_content_unbroken_witness :
    ∃ f content, (file_of "a.bin" [1, 2, 3, 255]).Open = Except.ok f ∧
      (unattachable (env_of (form_of [] [] [] [] []) "XYZ")
          { w := "", boundary := "XYZ", lastpart := some open_part }
          (file_of "a.bin" [1, 2, 3, 255])).1.w =
        "" ++ (delimiter { w := "", boundary := "XYZ", lastpart := some open_part } ++
          attachment_header_lines (env_of (form_of [] [] [] [] []) "XYZ") "a.bin" ++ "\r\n")
          ++ content ∧
      content = base64.EncodeToString f.data ∧
      '\r' ∉ content.data ∧ '\n' ∉ content.data ∧
      content.length = 4 * ((f.data.length + 2) / 3) :=
  C18_attachment_content_unbroken (env_of (form_of [] [] [] [] []) "XYZ")
    { w := "", boundary := "XYZ", lastpart := some open_part }
    (unattachable (env_of (form_of [] [] [] [] []) "XYZ")
      { w := "", boundary := "XYZ", lastpart := some open_part }
      (file_of "a.bin" [1, 2, 3, 255])).1
    (file_of "a.bin" [1, 2, 3, 255]) rfl

end ContactForm
